import Mathlib

/-!
Verification development for the agentgateway repository (TypeScript).

The repository implements an agent-trust system: a central "station" that
issues short-lived signed clearance certificates based on a reputation
score, and a "gateway" library that verifies certificates, enforces
score/scope thresholds and tracks live agent behavior per session.

This file gives a shallow embedding of the relevant source functions:

* `src/src/services/reputation.ts`     — `calculateReputationScore`
* `src/src/services/certificates.ts`   — `issueCertificate`, `verifyCertificate`
* `src/src/routes/certificates.ts`     — `POST /certificates/request`
* `src/src/services/verification.ts`   — `verifyAgent`, `reportOutcome`
* `src/src/services/reports.ts`        — `submitReport`
* `packages/gateway/src/behavior-tracker.ts` — `BehaviorTracker.recordAction`,
  its detector set and `hashParams`
* `packages/gateway/src/index.ts`      — the `POST /actions/:actionName` pipeline
* `packages/agent-sdk/src/client.ts`   — `AgentClient.getCertificate`

JavaScript machine integers/doubles are modelled as `Int`/`Rat` with the
exact floor/round semantics of `Math.floor`/`Math.round`; the md5 digest
(an external library call) is a parameter of the embedding; fallible code
returns `Except`/`Option`.
-/

/-! ### JavaScript numeric helpers -/

/-- `Math.floor` on a rational, as used by the source for stake bonus. -/
def jsFloor (q : ℚ) : ℤ := ⌊q⌋

/-- `Math.round` in JavaScript rounds half toward positive infinity:
`Math.round(x) = ⌊x + 1/2⌋`. -/
def jsRound (q : ℚ) : ℤ := ⌊q + 1/2⌋

/-! ### Station data model

Mirrors the Prisma `Agent` row together with the vouch count that
`calculateReputationScore` obtains through `include: { vouchesReceived }`.
`stakeAmount` is a non-negative decimal in the schema, modelled as `ℚ`;
timestamps are milliseconds since epoch, modelled as `ℤ`. -/

inductive AgentStatus
  | active
  | suspended
  | banned
deriving DecidableEq, Repr

structure Agent where
  id : String
  externalId : String
  developerId : String
  identityVerified : Bool
  stakeAmount : ℚ
  vouchCount : ℕ
  totalActions : ℕ
  successfulActions : ℕ
  failedActions : ℕ
  status : AgentStatus
  createdAt : ℤ
  reputationScore : ℤ
deriving DecidableEq, Repr

/-! ### Reputation calculator (`src/src/services/reputation.ts`) -/

/-- Factor breakdown returned by `calculateReputationScore`. -/
structure ReputationFactors where
  baseScore : ℤ
  identityBonus : ℤ
  stakeBonus : ℤ
  vouchBonus : ℤ
  successRateBonus : ℤ
  ageBonus : ℤ
  failurePenalty : ℤ
  totalScore : ℤ
deriving DecidableEq, Repr

/-- One month in milliseconds, as in the source: `30 * 24 * 60 * 60 * 1000`. -/
def monthMs : ℤ := 30 * 24 * 60 * 60 * 1000

/-- Embedding of `calculateReputationScore` (reputation.ts lines 15–81).
The database lookup is replaced by the agent row itself; `Date.now()` is the
explicit parameter `now` (milliseconds). -/
def calculateReputationScore (agent : Agent) (now : ℤ) : ReputationFactors :=
  let baseScore : ℤ := 50
  let identityBonus : ℤ := if agent.identityVerified then 10 else 0
  let stakeBonus : ℤ :=
    if 0 < agent.stakeAmount then min 15 (5 + jsFloor (agent.stakeAmount / 100)) else 0
  let vouchBonus : ℤ := min 20 ((agent.vouchCount : ℤ) * 2)
  let successRateBonus : ℤ :=
    if 0 < agent.totalActions then
      jsRound (((agent.successfulActions : ℚ) / (agent.totalActions : ℚ)) * 20)
    else 0
  let monthsOld : ℤ := Int.fdiv (now - agent.createdAt) monthMs
  let ageBonus : ℤ := min 10 monthsOld
  let failurePenalty : ℤ := (agent.failedActions : ℤ) * 5
  let totalScore : ℤ :=
    max 0 (min 100
      (baseScore + identityBonus + stakeBonus + vouchBonus +
        successRateBonus + ageBonus - failurePenalty))
  { baseScore, identityBonus, stakeBonus, vouchBonus,
    successRateBonus, ageBonus, failurePenalty, totalScore }

/-- Modelled from the spec: the additive score of §4.1 / claim C1, written
from the claim's words — base 50, +10 if identity verified, stake term
`0 if stakeAmount == 0 else min(15, 5 + floor(stake/100))`, vouch term
`min(20, 2 × vouchCount)`, success term `round(20 × successful/total)` when
`total > 0`, age term `min(10, months since createdAt)` with a month of
30×24×3600 s, minus `5 × failedActions`, the sum clamped to [0,100]. -/
def reputationScoreSpec (agent : Agent) (now : ℤ) : ℤ :=
  let identity : ℤ := if agent.identityVerified then 10 else 0
  let stake : ℤ :=
    if agent.stakeAmount = 0 then 0 else min 15 (5 + jsFloor (agent.stakeAmount / 100))
  let vouches : ℤ := min 20 (2 * (agent.vouchCount : ℤ))
  let successRate : ℤ :=
    if 0 < agent.totalActions then
      jsRound (20 * ((agent.successfulActions : ℚ) / (agent.totalActions : ℚ)))
    else 0
  let age : ℤ := min 10 (Int.fdiv (now - agent.createdAt) monthMs)
  max 0 (min 100
    (50 + identity + stake + vouches + successRate + age - 5 * (agent.failedActions : ℤ)))

/-- The stake bonus component in isolation, as computed by the source. -/
def stakeBonusOf (stakeAmount : ℚ) : ℤ :=
  if 0 < stakeAmount then min 15 (5 + jsFloor (stakeAmount / 100)) else 0

/-! ### C1: the reputation score matches the spec formula -/

/-- Helper: the two stake-branch conditions agree for non-negative stakes. -/
theorem stakeBonus_cases (q : ℚ) (h : 0 ≤ q) :
    (if 0 < q then min 15 (5 + jsFloor (q / 100)) else 0) =
    (if q = 0 then 0 else min 15 (5 + jsFloor (q / 100))) := by
  rcases h.lt_or_eq with h' | h'
  · simp [h', h'.ne']
  · simp [← h']

/-- C1: For every agent state, `calculateReputationScore` returns the additive
score of the claim — base 50, +10 for verified identity, the stake term
(0 at stake 0, else min(15, 5 + ⌊stake/100⌋)), min(20, 2·vouchCount),
round(20·successful/total) when total > 0, min(10, months of age), minus
5·failedActions, clamped to [0,100]; its stake component gives 0/5/6/15 at
stakes 0/1/100/≥1000; and the function is deterministic. -/
theorem reputation_matches_spec (a : Agent) (now : ℤ) (h : 0 ≤ a.stakeAmount) :
    (calculateReputationScore a now).totalScore = reputationScoreSpec a now ∧
    (calculateReputationScore a now).stakeBonus = stakeBonusOf a.stakeAmount ∧
    calculateReputationScore a now = calculateReputationScore a now ∧
    stakeBonusOf 0 = 0 ∧ stakeBonusOf 1 = 5 ∧ stakeBonusOf 100 = 6 ∧
    (∀ q : ℚ, 1000 ≤ q → stakeBonusOf q = 15) := by
  refine ⟨?_, rfl, rfl, ?_, ?_, ?_, ?_⟩
  · show max 0 _ = reputationScoreSpec a now
    rw [reputationScoreSpec]
    rw [show ((a.successfulActions : ℚ) / (a.totalActions : ℚ)) * 20 =
        20 * ((a.successfulActions : ℚ) / (a.totalActions : ℚ)) from mul_comm _ _,
      show (a.vouchCount : ℤ) * 2 = 2 * (a.vouchCount : ℤ) from mul_comm _ _,
      show (a.failedActions : ℤ) * 5 = 5 * (a.failedActions : ℤ) from mul_comm _ _,
      ← stakeBonus_cases _ h]
  · simp [stakeBonusOf]
  · norm_num [stakeBonusOf, jsFloor]
  · norm_num [stakeBonusOf, jsFloor]
  · intro q hq
    have h0 : (0 : ℚ) < q := lt_of_lt_of_le (by norm_num) hq
    have hfl : (10 : ℤ) ≤ jsFloor (q / 100) := by
      rw [jsFloor, show (10 : ℤ) = ⌊(1000 : ℚ)/100⌋ by norm_num]
      exact Int.floor_le_floor (by linarith)
    simp only [stakeBonusOf, if_pos h0]
    omega

/-- A concrete agent used to witness C1. -/
def c1Agent : Agent :=
  { id := "a1", externalId := "x1", developerId := "d1",
    identityVerified := true, stakeAmount := 5, vouchCount := 3,
    totalActions := 0, successfulActions := 0, failedActions := 0,
    status := .active, createdAt := 0, reputationScore := 50 }

/-- Witness for C1 at a concrete agent. -/
theorem reputation_matches_spec_witness :
    (0 : ℚ) ≤ c1Agent.stakeAmount ∧
    (calculateReputationScore c1Agent 0).totalScore = reputationScoreSpec c1Agent 0 :=
  ⟨by decide, (reputation_matches_spec c1Agent 0 (by decide)).1⟩

/-! ### Station state (`src/src/services/verification.ts`, `reports.ts`)

The Prisma store is modelled as lists of rows; generated action ids come
from a counter. Reputation events carry `(agentId, eventType, scoreChange)`.
-/

inductive Decision
  | allowed
  | denied
deriving DecidableEq, Repr

structure ActionRec where
  id : ℕ
  agentId : String
  actionType : String
  decision : Decision
  reason : String
deriving DecidableEq, Repr

structure CertRecord where
  jti : String
  agentId : String
  score : ℤ
  expiresAt : ℤ
  revoked : Bool
deriving DecidableEq, Repr

structure RepEvent where
  agentId : String
  eventType : String
  scoreChange : ℤ
deriving DecidableEq, Repr

structure GatewayReportRow where
  agentId : String
  gatewayId : String
  certificateJti : String
  actionsCount : ℕ
  successCount : ℕ
  failureCount : ℕ
deriving DecidableEq, Repr

structure StationState where
  agents : List Agent
  actions : List ActionRec
  certs : List CertRecord
  events : List RepEvent
  gatewayReports : List GatewayReportRow
  nextActionId : ℕ
deriving Repr

/-- `prisma.agent.findUnique({ where: { developerId_externalId } })`. -/
def findAgentByExternal (st : StationState) (developerId externalId : String) : Option Agent :=
  st.agents.find? (fun a => a.developerId == developerId && a.externalId == externalId)

/-- `prisma.agent.findUnique({ where: { id } })`. -/
def findAgentById (st : StationState) (id : String) : Option Agent :=
  st.agents.find? (fun a => a.id == id)

/-- `prisma.action.findUnique({ where: { id } })`. -/
def findAction (st : StationState) (id : ℕ) : Option ActionRec :=
  st.actions.find? (fun a => a.id == id)

/-- `prisma.certificate.findUnique({ where: { jti } })`. -/
def findCert (st : StationState) (jti : String) : Option CertRecord :=
  st.certs.find? (fun c => c.jti == jti)

/-- `prisma.agent.update({ where: { id }, data })`: rewrite the matching row. -/
def updateAgentRows (agents : List Agent) (id : String) (f : Agent → Agent) : List Agent :=
  agents.map (fun a => if a.id == id then f a else a)

/-- `prisma.action.create` with a generated id; returns the created row. -/
def createAction (st : StationState) (agentId actionType : String) (decision : Decision)
    (reason : String) : ActionRec × StationState :=
  let rec' : ActionRec :=
    { id := st.nextActionId, agentId, actionType, decision, reason }
  (rec', { st with actions := st.actions ++ [rec'], nextActionId := st.nextActionId + 1 })

/-- `recordReputationEvent` (reputation.ts lines 94–106). -/
def recordReputationEvent (st : StationState) (agentId eventType : String)
    (scoreChange : ℤ) : StationState :=
  { st with events := st.events ++ [{ agentId, eventType, scoreChange }] }

/-- `updateAgentReputation` (reputation.ts lines 83–92): recompute and write
back the cached score; returns the new total. -/
def updateAgentReputation (st : StationState) (agentId : String) (now : ℤ) :
    ℤ × StationState :=
  match findAgentById st agentId with
  | none => (0, st)  -- `calculateReputationScore` throws for a missing agent
  | some a =>
    let total := (calculateReputationScore a now).totalScore
    let rows := updateAgentRows st.agents agentId
      (fun b => { b with reputationScore := total })
    (total, { st with agents := rows })

structure VerificationResult where
  allowed : Bool
  score : ℤ
  reason : String
  actionId : ℕ
deriving DecidableEq, Repr

/-- Embedding of `verifyAgent` (verification.ts lines 20–129). `agentId` in the
options is the agent's external id; `now` feeds the score recomputation. The
denied-unknown branch records an action against the literal id `"unknown"`. -/
def verifyAgent (st : StationState) (now : ℤ) (developerId agentId actionType : String)
    (threshold : ℤ := 50) : VerificationResult × StationState :=
  match findAgentByExternal st developerId agentId with
  | none =>
    let (action, st1) := createAction st "unknown" actionType .denied "Agent not found"
    ({ allowed := false, score := 0, reason := "Agent not registered",
       actionId := action.id }, st1)
  | some agent =>
    if agent.status = .banned then
      let (action, st1) := createAction st agent.id actionType .denied "Agent is banned"
      ({ allowed := false, score := agent.reputationScore, reason := "Agent is banned",
         actionId := action.id }, st1)
    else if agent.status = .suspended then
      let (action, st1) := createAction st agent.id actionType .denied "Agent is suspended"
      ({ allowed := false, score := agent.reputationScore, reason := "Agent is suspended",
         actionId := action.id }, st1)
    else
      let score := (calculateReputationScore agent now).totalScore
      let allowed := threshold ≤ score
      let reason := if allowed then "Agent verified" else "Score below threshold"
      let (action, st1) := createAction st agent.id actionType
        (if allowed then .allowed else .denied) reason
      let rows := updateAgentRows st1.agents agent.id
        (fun b => { b with totalActions := b.totalActions + 1 })
      let st2 := { st1 with agents := rows }
      ({ allowed, score, reason, actionId := action.id }, st2)

inductive Outcome
  | success
  | failure
deriving DecidableEq, Repr

/-- Embedding of `reportOutcome` (verification.ts lines 131–171). Increments
`successfulActions` or `failedActions` (never `totalActions`), appends a
reputation event, then recomputes and writes back the score. -/
def reportOutcome (st : StationState) (now : ℤ) (actionId : ℕ) (developerId : String)
    (outcome : Outcome) : Except String ((Bool × ℤ) × StationState) :=
  match findAction st actionId with
  | none => .error "Action not found"
  | some action =>
    if action.agentId == "unknown" then .error "Action not found"
    else
      match findAgentById st action.agentId with
      | none => .error "Action not found"  -- broken relation: `include` yields no agent
      | some agent =>
        if agent.developerId ≠ developerId then
          .error "Action does not belong to your agent"
        else
          let st1 :=
            match outcome with
            | .success =>
              let rows := updateAgentRows st.agents action.agentId
                (fun b => { b with successfulActions := b.successfulActions + 1 })
              recordReputationEvent { st with agents := rows } action.agentId "success" 0
            | .failure =>
              let rows := updateAgentRows st.agents action.agentId
                (fun b => { b with failedActions := b.failedActions + 1 })
              recordReputationEvent { st with agents := rows } action.agentId "failure" (-5)
          let p := updateAgentReputation st1 action.agentId now
          .ok ((true, p.1), p.2)

structure GatewayReportAction where
  actionType : String
  outcome : Outcome
deriving DecidableEq, Repr

structure GatewayReportRequest where
  agentId : String
  gatewayId : String
  certificateJti : String
  actions : List GatewayReportAction
deriving DecidableEq, Repr

structure ReportResult where
  agentId : String
  actionsProcessed : ℕ
  successCount : ℕ
  failureCount : ℕ
  newReputationScore : ℤ
deriving DecidableEq, Repr

/-- One item of `submitReport`'s loop (reports.ts lines 46–80): create the
action record, bump `totalActions` plus the outcome counter, log the event. -/
def submitReportItem (gatewayId agentId : String) (st : StationState)
    (action : GatewayReportAction) : StationState :=
  let (_, st1) := createAction st agentId action.actionType .allowed
    ("Gateway " ++ gatewayId ++ " reported")
  match action.outcome with
  | .success =>
    let rows := updateAgentRows st1.agents agentId
      (fun b => { b with totalActions := b.totalActions + 1,
                         successfulActions := b.successfulActions + 1 })
    recordReputationEvent { st1 with agents := rows } agentId "success" 0
  | .failure =>
    let rows := updateAgentRows st1.agents agentId
      (fun b => { b with totalActions := b.totalActions + 1,
                         failedActions := b.failedActions + 1 })
    recordReputationEvent { st1 with agents := rows } agentId "failure" (-5)

/-- Embedding of `submitReport` (reports.ts lines 17–104). -/
def submitReport (st : StationState) (now : ℤ) (report : GatewayReportRequest) :
    Except String (ReportResult × StationState) :=
  match findAgentById st report.agentId with
  | none => .error "Agent not found"
  | some _ =>
    match findCert st report.certificateJti with
    | none => .error "Certificate not found"
    | some cert =>
      if cert.agentId ≠ report.agentId then
        .error "Certificate does not belong to this agent"
      else
        let st1 := report.actions.foldl (submitReportItem report.gatewayId report.agentId) st
        let successCount := (report.actions.filter (fun a => a.outcome == .success)).length
        let failureCount := (report.actions.filter (fun a => a.outcome == .failure)).length
        let st2 := { st1 with gatewayReports := st1.gatewayReports ++
          [{ agentId := report.agentId, gatewayId := report.gatewayId,
             certificateJti := report.certificateJti,
             actionsCount := report.actions.length, successCount, failureCount }] }
        let p := updateAgentReputation st2 report.agentId now
        .ok ({ agentId := report.agentId, actionsProcessed := report.actions.length,
               successCount, failureCount, newReputationScore := p.1 }, p.2)

/-! ### Certificates (`src/src/services/certificates.ts`)

The JWT layer is modelled at the claim level: a token is either malformed or
a payload plus a flag saying whether its RS256 signature verifies against
the station key pair (key material and the base64 encoding are external).
`jwt.sign` stamps `iat = now` and `exp = now + expiry` (seconds). -/

structure CertPayload where
  sub : String
  agentExternalId : String
  developerId : String
  score : ℤ
  identityVerified : Bool
  status : AgentStatus
  totalActions : ℕ
  successRate : Option ℚ
  /-- optional scope claim declared in `CertificatePayload` (types.ts) -/
  scope : Option (List String)
  iss : String
  jti : String
  iat : ℤ
  exp : ℤ
deriving DecidableEq, Repr

inductive Token
  | malformed
  | signed (payload : CertPayload) (sigOk : Bool)
deriving DecidableEq, Repr

inductive IssueError
  | notFound   -- "Agent not found"
  | banned     -- "Agent is banned — cannot issue certificate"
  | suspended  -- "Agent is suspended — cannot issue certificate"
deriving DecidableEq, Repr

structure CertResult where
  token : Token
  payload : CertPayload
  expiresAt : ℤ
  score : ℤ
deriving DecidableEq, Repr

/-- `Math.round(x * 100) / 100`, the two-decimal success rate of the payload. -/
def roundTo2 (q : ℚ) : ℚ := (jsRound (q * 100) : ℚ) / 100

/-- Embedding of `issueCertificate` (certificates.ts lines 16–80). `nowSec` is
`Math.floor(Date.now() / 1000)`; `expirySecs` is `CERTIFICATE_EXPIRY_SECONDS`
(default 300); `jti` stands for the generated UUID. The signed payload carries
no `scope` claim: the source never sets one. -/
def issueCertificate (st : StationState) (nowMs : ℤ) (expirySecs : ℤ) (jti : String)
    (agentExternalId developerId : String) :
    Except IssueError (CertResult × StationState) :=
  match findAgentByExternal st developerId agentExternalId with
  | none => .error .notFound
  | some agent =>
    if agent.status = .banned then .error .banned
    else if agent.status = .suspended then .error .suspended
    else
      let score := (calculateReputationScore agent nowMs).totalScore
      let nowSec := Int.fdiv nowMs 1000
      let exp := nowSec + expirySecs
      let payload : CertPayload :=
        { sub := agent.id
          agentExternalId := agent.externalId
          developerId := agent.developerId
          score
          identityVerified := agent.identityVerified
          status := agent.status
          totalActions := agent.totalActions
          successRate :=
            if 0 < agent.totalActions then
              some (roundTo2 ((agent.successfulActions : ℚ) / (agent.totalActions : ℚ)))
            else none
          scope := none
          iss := "agent-trust-station"
          jti
          iat := nowSec
          exp }
      let record : CertRecord :=
        { jti, agentId := agent.id, score, expiresAt := exp, revoked := false }
      .ok ({ token := .signed payload true, payload, expiresAt := exp, score },
           { st with certs := st.certs ++ [record] })

/-- Body of `POST /certificates/request` (routes/certificates.ts lines 12–37).
The handler destructures only `agentId` from the request body; a `scope`
field supplied by the caller is never read. -/
structure CertRequestBody where
  agentId : Option String
  scope : Option (List String)
deriving DecidableEq, Repr

inductive RouteError
  | badRequest (msg : String)
  | issueFailed (e : IssueError)
deriving DecidableEq, Repr

/-- Embedding of the `POST /certificates/request` route handler. -/
def certificateRequestRoute (st : StationState) (nowMs : ℤ) (expirySecs : ℤ)
    (jti : String) (developerId : String) (body : CertRequestBody) :
    Except RouteError (CertResult × StationState) :=
  match body.agentId with
  | none => .error (.badRequest "agentId required")
  | some agentId =>
    match issueCertificate st nowMs expirySecs jti agentId developerId with
    | .error e => .error (.issueFailed e)
    | .ok r => .ok r

/-- Embedding of `verifyCertificate` (certificates.ts lines 86–111): RS256
signature against the station public key, issuer check and expiry check via
`jwt.verify` (any failure is caught and yields `null`), then the certificate
record is looked up by `jti` and must exist unrevoked. -/
def verifyCertificate (st : StationState) (nowSec : ℤ) (tok : Token) :
    Option CertPayload :=
  match tok with
  | .malformed => none
  | .signed payload sigOk =>
    if sigOk && payload.iss == "agent-trust-station" && decide (nowSec < payload.exp) then
      match findCert st payload.jti with
      | none => none
      | some cert => if cert.revoked then none else some payload
    else none

/-! ### C5: issuance error contract and expiry -/

/-- C5: `issueCertificate` fails with `NotFound` exactly when no agent matches
`(developerId, externalId)`, fails with `Forbidden` (banned/suspended) exactly
when the agent's status is banned or suspended, and otherwise succeeds with
the signed token, the absolute expiry, the freshly recomputed score, and
`exp − iat` equal to the configured expiry. -/
theorem issue_certificate_contract (st : StationState) (nowMs expirySecs : ℤ)
    (jti agentExternalId developerId : String) :
    (issueCertificate st nowMs expirySecs jti agentExternalId developerId =
        .error .notFound ↔
      findAgentByExternal st developerId agentExternalId = none) ∧
    (∀ a, findAgentByExternal st developerId agentExternalId = some a →
      ((issueCertificate st nowMs expirySecs jti agentExternalId developerId =
          .error .banned ↔ a.status = .banned) ∧
       (issueCertificate st nowMs expirySecs jti agentExternalId developerId =
          .error .suspended ↔ a.status = .suspended) ∧
       (a.status = .active →
         ∃ r st', issueCertificate st nowMs expirySecs jti agentExternalId developerId =
             .ok (r, st') ∧
           r.payload.exp - r.payload.iat = expirySecs ∧
           r.expiresAt = Int.fdiv nowMs 1000 + expirySecs ∧
           r.score = (calculateReputationScore a nowMs).totalScore ∧
           r.token = .signed r.payload true))) := by
  constructor
  · unfold issueCertificate
    cases h : findAgentByExternal st developerId agentExternalId with
    | none => simp
    | some a =>
      simp only [h]
      by_cases hb : a.status = .banned <;> by_cases hs : a.status = .suspended <;>
        simp [hb, hs]
  · intro a ha
    unfold issueCertificate
    simp only [ha]
    cases hstat : a.status with
    | banned => simp
    | suspended => simp
    | active =>
      refine ⟨by simp, by simp, fun _ => ⟨_, _, rfl, ?_, rfl, rfl, rfl⟩⟩
      show (Int.fdiv nowMs 1000 + expirySecs) - Int.fdiv nowMs 1000 = expirySecs
      omega

/-- A one-agent station used by the certificate witnesses. -/
def certSt : StationState :=
  { agents := [{ id := "A", externalId := "x", developerId := "d",
                 identityVerified := false, stakeAmount := 0, vouchCount := 0,
                 totalActions := 0, successfulActions := 0, failedActions := 0,
                 status := .active, createdAt := 0, reputationScore := 50 }],
    actions := [], certs := [], events := [], gatewayReports := [], nextActionId := 0 }

/-- Witness for C5: a concrete active agent yields a certificate with
`exp − iat = 300`. -/
theorem issue_certificate_contract_witness :
    ∃ r st', issueCertificate certSt 0 300 "j1" "x" "d" = .ok (r, st') ∧
      r.payload.exp - r.payload.iat = 300 ∧
      r.expiresAt = Int.fdiv 0 1000 + 300 ∧
      r.score = (calculateReputationScore
        { id := "A", externalId := "x", developerId := "d",
          identityVerified := false, stakeAmount := 0, vouchCount := 0,
          totalActions := 0, successfulActions := 0, failedActions := 0,
          status := .active, createdAt := 0, reputationScore := 50 } 0).totalScore ∧
      r.token = .signed r.payload true :=
  ((issue_certificate_contract certSt 0 300 "j1" "x" "d").2 _ (by decide)).2.2 rfl

/-! ### C6: station-side certificate verification -/

/-- C6: `verifyCertificate` returns the decoded payload exactly when the
signature verifies, the issuer is `agent-trust-station`, `exp > now`, and an
unrevoked certificate record with the token's `jti` exists; in every other
case it reports the certificate invalid (`none`). -/
theorem verify_certificate_contract (st : StationState) (nowSec : ℤ) (tok : Token)
    (p : CertPayload) :
    verifyCertificate st nowSec tok = some p ↔
      tok = .signed p true ∧ p.iss = "agent-trust-station" ∧ nowSec < p.exp ∧
      ∃ c, findCert st p.jti = some c ∧ c.revoked = false := by
  cases tok with
  | malformed => simp [verifyCertificate]
  | signed payload sigOk =>
    cases sigOk with
    | false => simp [verifyCertificate]
    | true =>
      by_cases hiss : payload.iss = "agent-trust-station"
      · by_cases hexp : nowSec < payload.exp
        · cases hc : findCert st payload.jti with
          | none =>
            simp only [verifyCertificate, hiss, hexp, hc]
            constructor
            · intro h; simp at h
            · rintro ⟨he, -, -, c, hc', -⟩
              injection he with h1
              subst h1; rw [hc] at hc'; cases hc'
          | some c =>
            cases hr : c.revoked with
            | true =>
              simp only [verifyCertificate, hiss, hexp, hc, hr]
              constructor
              · intro h; simp at h
              · rintro ⟨he, -, -, c', hc', hr'⟩
                injection he with h1
                subst h1; rw [hc] at hc'
                injection hc' with h2
                rw [← h2, hr] at hr'; cases hr'
            | false =>
              simp only [verifyCertificate, hiss, hexp, hc, hr]
              constructor
              · intro h
                have hpe : payload = p := by simpa using h
                subst hpe
                exact ⟨rfl, hiss, hexp, c, hc, hr⟩
              · rintro ⟨he, -, -, -⟩
                injection he with h1
                subst h1; simp
        · simp only [verifyCertificate]
          constructor
          · intro h; simp [hexp] at h
          · rintro ⟨he, -, hexp', -⟩
            injection he with h1
            subst h1; exact absurd hexp' hexp
      · simp only [verifyCertificate]
        constructor
        · intro h; simp [hiss] at h
        · rintro ⟨he, hiss', -⟩
          injection he with h1
          subst h1; exact absurd hiss' hiss

/-- Witness for C6: a concrete unrevoked, unexpired, well-signed token decodes. -/
theorem verify_certificate_contract_witness :
    verifyCertificate
      { agents := [], actions := [],
        certs := [{ jti := "j", agentId := "A", score := 50, expiresAt := 10,
                    revoked := false }],
        events := [], gatewayReports := [], nextActionId := 0 } 0
      (.signed
        { sub := "A", agentExternalId := "x", developerId := "d", score := 50,
          identityVerified := false, status := .active, totalActions := 0,
          successRate := none, scope := none, iss := "agent-trust-station",
          jti := "j", iat := 0, exp := 10 } true) =
      some
        { sub := "A", agentExternalId := "x", developerId := "d", score := 50,
          identityVerified := false, status := .active, totalActions := 0,
          successRate := none, scope := none, iss := "agent-trust-station",
          jti := "j", iat := 0, exp := 10 } :=
  (verify_certificate_contract _ 0 _ _).2
    ⟨rfl, rfl, by decide,
     ⟨{ jti := "j", agentId := "A", score := 50, expiresAt := 10, revoked := false },
      rfl, rfl⟩⟩

/-! ### C4: the issued payload never carries a scope claim

The agent SDK sends `scope` in the request body, the gateway enforces
`certificate.scope`, `CertificatePayload` declares the claim and the
repository's `examples/scope-demo.ts` expects out-of-scope actions to be
blocked — but the station route reads only `agentId` from the body and
`issueCertificate` never sets a `scope` claim, so scoped issuance is
inoperative. -/

/-- Helper for C4: every successful issuance carries no scope claim. -/
theorem issueCertificate_scope_none (st : StationState) (nowMs expirySecs : ℤ)
    (jti agentExternalId developerId : String) (r : CertResult) (st' : StationState)
    (h : issueCertificate st nowMs expirySecs jti agentExternalId developerId =
      .ok (r, st')) : r.payload.scope = none := by
  unfold issueCertificate at h
  cases hf : findAgentByExternal st developerId agentExternalId <;> rw [hf] at h
  · cases h
  · simp only at h
    split_ifs at h
    all_goals try cases h
    all_goals rfl

/-- C4 (code divergence): for every issuance request — including one that
supplies a non-empty scope list — the issued certificate's payload carries
no `scope` claim; in particular the concrete request with
`scope = ["search"]` yields a payload with `scope = none` rather than
`scope = ["search"]`. -/
theorem issued_certificate_has_no_scope_claim :
    (∀ (st : StationState) (nowMs expirySecs : ℤ) (jti developerId : String)
        (body : CertRequestBody) (r : CertResult) (st' : StationState),
      certificateRequestRoute st nowMs expirySecs jti developerId body = .ok (r, st') →
      r.payload.scope = none) ∧
    (∃ r st', certificateRequestRoute certSt 0 300 "j1" "d"
        { agentId := some "x", scope := some ["search"] } = .ok (r, st') ∧
      r.payload.scope = none ∧ r.payload.scope ≠ some ["search"]) := by
  constructor
  · intro st nowMs expirySecs jti developerId body r st' h
    unfold certificateRequestRoute at h
    cases hb : body.agentId <;> rw [hb] at h
    · cases h
    · rename_i agentId
      simp only at h
      cases hi : issueCertificate st nowMs expirySecs jti agentId developerId <;>
        rw [hi] at h
      · cases h
      · rename_i p
        obtain ⟨r0, st0⟩ := p
        simp only at h
        injection h with h1
        injection h1 with hr hs
        subst hr
        exact issueCertificate_scope_none st nowMs expirySecs jti agentId developerId
          r0 st0 hi
  · exact ⟨_, _, rfl, rfl, by simp⟩

/-! ### Counter invariant (`successfulActions + failedActions ≤ totalActions`) -/

/-- The per-agent counter invariant from spec §8. -/
def counterInv (a : Agent) : Prop :=
  a.successfulActions + a.failedActions ≤ a.totalActions

instance (a : Agent) : Decidable (counterInv a) := by
  unfold counterInv; infer_instance

/-- The invariant holds for every agent at rest. -/
def stationInv (st : StationState) : Prop :=
  ∀ a ∈ st.agents, counterInv a

instance (st : StationState) : Decidable (stationInv st) := by
  unfold stationInv; infer_instance

/-- Updating rows preserves the invariant when the update does on matching
rows (non-matching rows are untouched). -/
theorem stationInv_updateRows (rows : List Agent) (id : String) (f : Agent → Agent)
    (hrows : ∀ a ∈ rows, counterInv a)
    (hf : ∀ a ∈ rows, (a.id == id) = true → counterInv (f a)) :
    ∀ a' ∈ updateAgentRows rows id f, counterInv a' := by
  intro a' ha'
  obtain ⟨a, ha, rfl⟩ := List.mem_map.mp ha'
  by_cases hid : (a.id == id) = true
  · rw [if_pos hid]; exact hf a ha hid
  · rw [if_neg hid]; exact hrows a ha

/-- `updateAgentReputation` only rewrites the cached score. -/
theorem stationInv_updateAgentReputation (st : StationState) (agentId : String)
    (now : ℤ) (h : stationInv st) :
    stationInv (updateAgentReputation st agentId now).2 := by
  unfold updateAgentReputation
  cases hf : findAgentById st agentId with
  | none => exact h
  | some a =>
    intro a' ha'
    exact stationInv_updateRows st.agents agentId
      (fun b => { b with reputationScore := (calculateReputationScore a now).totalScore })
      h (fun b hb _ => h b hb) a' ha'

/-- `createAction` and `recordReputationEvent` do not touch agent rows. -/
theorem stationInv_createAction (st : StationState) (aid at' : String) (d : Decision)
    (r : String) (h : stationInv st) : stationInv (createAction st aid at' d r).2 := h

/-- One gateway-report item preserves the invariant: it bumps `totalActions`
together with the outcome counter. -/
theorem stationInv_submitReportItem (gatewayId agentId : String) (st : StationState)
    (item : GatewayReportAction) (h : stationInv st) :
    stationInv (submitReportItem gatewayId agentId st item) := by
  unfold submitReportItem
  cases item.outcome <;>
  · intro a' ha'
    refine stationInv_updateRows _ agentId _ (fun b hb => h b hb)
      (fun b hb _ => ?_) a' ha'
    have := h b hb
    unfold counterInv at *
    simp only
    omega

/-- Folding report items preserves the invariant. -/
theorem stationInv_foldItems (gatewayId agentId : String)
    (items : List GatewayReportAction) :
    ∀ st : StationState, stationInv st →
      stationInv (items.foldl (submitReportItem gatewayId agentId) st) := by
  induction items with
  | nil => exact fun st h => h
  | cons item rest ih =>
    intro st h
    exact ih _ (stationInv_submitReportItem gatewayId agentId st item h)

/-- C7 (amended): `verifyAgent` and `submitReport` preserve the counter
invariant from every state in which it holds; `reportOutcome` — which
increments `successfulActions`/`failedActions` without `totalActions` —
preserves it provided every agent matching the reported action's `agentId`
still has `successfulActions + failedActions < totalActions` (an unreported
verified action outstanding). -/
theorem counter_invariant_preservation :
    (∀ (st : StationState) (now : ℤ) (developerId externalId actionType : String)
        (threshold : ℤ), stationInv st →
      stationInv (verifyAgent st now developerId externalId actionType threshold).2) ∧
    (∀ (st : StationState) (now : ℤ) (rep : GatewayReportRequest)
        (r : ReportResult) (st' : StationState), stationInv st →
      submitReport st now rep = .ok (r, st') → stationInv st') ∧
    (∀ (st : StationState) (now : ℤ) (actionId : ℕ) (developerId : String)
        (oc : Outcome) (r : Bool × ℤ) (st' : StationState), stationInv st →
      (∀ act ∈ st.actions, act.id = actionId →
        ∀ a ∈ st.agents, a.id = act.agentId →
          a.successfulActions + a.failedActions < a.totalActions) →
      reportOutcome st now actionId developerId oc = .ok (r, st') →
      stationInv st') := by
  refine ⟨?_, ?_, ?_⟩
  · intro st now developerId externalId actionType threshold h
    unfold verifyAgent
    cases hf : findAgentByExternal st developerId externalId with
    | none => exact h
    | some a =>
      simp only
      split
      · exact h
      · split
        · exact h
        · intro a' ha'
          refine stationInv_updateRows st.agents a.id _ h (fun b hb' _ => ?_) a' ha'
          have := h b hb'
          unfold counterInv at *
          simp only
          omega
  · intro st now rep r st' h hok
    unfold submitReport at hok
    cases hf : findAgentById st rep.agentId <;> rw [hf] at hok
    · cases hok
    · cases hc : findCert st rep.certificateJti <;> rw [hc] at hok
      · cases hok
      · simp only at hok
        split_ifs at hok
        all_goals try cases hok
        all_goals refine stationInv_updateAgentReputation _ rep.agentId now ?_
        all_goals intro a ha
        all_goals exact stationInv_foldItems rep.gatewayId rep.agentId rep.actions st h a ha
  · intro st now actionId developerId oc r st' h hstrict hok
    unfold reportOutcome at hok
    cases ha : findAction st actionId <;> rw [ha] at hok
    · cases hok
    · rename_i act
      simp only at hok
      by_cases hu : (act.agentId == "unknown") = true
      · rw [if_pos hu] at hok; cases hok
      · rw [if_neg hu] at hok
        cases hg : findAgentById st act.agentId <;> rw [hg] at hok
        · cases hok
        · rename_i ag
          simp only at hok
          by_cases hd : ag.developerId ≠ developerId
          · rw [if_pos hd] at hok; cases hok
          · rw [if_neg hd] at hok
            have hmem : act ∈ st.actions := List.mem_of_find?_eq_some ha
            have hid : act.id = actionId := by simpa using List.find?_some ha
            have hstrict2 : ∀ a ∈ st.agents, (a.id == act.agentId) = true →
                a.successfulActions + a.failedActions < a.totalActions := by
              intro a hag hidb
              exact hstrict act hmem hid a hag (by simpa using hidb)
            cases oc <;> simp only at hok <;>
              (injection hok with h1; injection h1 with hr hs; subst hs) <;>
              refine stationInv_updateAgentReputation _ act.agentId now ?_ <;>
              intro a' ha' <;>
              refine stationInv_updateRows st.agents act.agentId _
                (fun b hb => h b hb) (fun b hb hidb => ?_) a' ha' <;>
              · have := hstrict2 b hb hidb
                unfold counterInv
                simp only
                omega

/-- A station with one verified action outstanding (t = 2, s = f = 0). -/
def c7WitnessSt : StationState :=
  { agents := [{ id := "A", externalId := "x", developerId := "d",
                 identityVerified := false, stakeAmount := 0, vouchCount := 0,
                 totalActions := 2, successfulActions := 0, failedActions := 0,
                 status := .active, createdAt := 0, reputationScore := 50 }],
    actions := [{ id := 0, agentId := "A", actionType := "t",
                  decision := .allowed, reason := "r" }],
    certs := [], events := [], gatewayReports := [], nextActionId := 1 }

/-- Witness for C7 (amended): with an unreported verified action outstanding,
`reportOutcome` keeps the invariant. -/
theorem counter_invariant_preservation_witness :
    ∃ r st', reportOutcome c7WitnessSt 0 0 "d" .success = .ok (r, st') ∧
      stationInv st' :=
  ⟨_, _, rfl,
    counter_invariant_preservation.2.2 c7WitnessSt 0 0 "d" .success _ _
      (by decide) (by decide) rfl⟩

/-- A pristine station whose only agent is banned (counters all zero). -/
def c7BannedSt : StationState :=
  { agents := [{ id := "A", externalId := "x", developerId := "d",
                 identityVerified := false, stakeAmount := 0, vouchCount := 0,
                 totalActions := 0, successfulActions := 0, failedActions := 0,
                 status := .banned, createdAt := 0, reputationScore := 50 }],
    actions := [], certs := [], events := [], gatewayReports := [], nextActionId := 0 }

/-- The state after one (denied) verification of the banned agent: reachable,
and the counter invariant holds in it. -/
def c7AfterVerify : StationState := (verifyAgent c7BannedSt 0 "d" "x" "probe" 50).2

/-- Counterexample for C7 as stated: from the reachable invariant-holding
state `c7AfterVerify`, a single `reportOutcome` (for the denied action the
station itself recorded) drives `successfulActions + failedActions` above
`totalActions` — `reportOutcome` bumps an outcome counter without bumping
`totalActions`. -/
theorem report_outcome_breaks_counter_invariant :
    stationInv c7AfterVerify ∧
    ∃ r st', reportOutcome c7AfterVerify 0 0 "d" .success = .ok (r, st') ∧
      ¬ stationInv st' :=
  ⟨by decide, _, _, rfl, by decide⟩

/-! ### C10: frame effect of `verifyAgent` on the counters -/

/-- The row update `verifyAgent` performs in its active branch. -/
def bumpTotal (b : Agent) : Agent := { b with totalActions := b.totalActions + 1 }

/-- Characterization of the agent rows after `verifyAgent`. -/
theorem verifyAgent_agents_char (st : StationState) (now : ℤ)
    (developerId externalId actionType : String) (threshold : ℤ) :
    (findAgentByExternal st developerId externalId = none →
      (verifyAgent st now developerId externalId actionType threshold).2.agents =
        st.agents) ∧
    (∀ a, findAgentByExternal st developerId externalId = some a →
      ((a.status = .banned ∨ a.status = .suspended) →
        (verifyAgent st now developerId externalId actionType threshold).2.agents =
          st.agents) ∧
      (a.status = .active →
        (verifyAgent st now developerId externalId actionType threshold).2.agents =
          updateAgentRows st.agents a.id bumpTotal)) := by
  constructor
  · intro hf
    unfold verifyAgent
    rw [hf]
    rfl
  · intro a hf
    constructor
    · rintro (hb | hs)
      · unfold verifyAgent
        rw [hf]
        simp only [hb]
        rfl
      · unfold verifyAgent
        rw [hf]
        simp only [hs]
        have : AgentStatus.suspended ≠ AgentStatus.banned := by decide
        rw [if_neg this]
        rfl
    · intro ha
      unfold verifyAgent
      rw [hf]
      simp only [ha]
      have h1 : AgentStatus.active ≠ AgentStatus.banned := by decide
      have h2 : AgentStatus.active ≠ AgentStatus.suspended := by decide
      rw [if_neg h1, if_neg h2]
      rfl

/-- C10: on an existing active agent, `verifyAgent` increments exactly that
agent's `totalActions` by 1 (allowed or denied alike) and leaves
`successfulActions`/`failedActions` — and every other agent row — unchanged;
on an unknown, banned or suspended agent it changes no agent row at all. -/
theorem verifyAgent_counter_effects (st : StationState) (now : ℤ)
    (developerId externalId actionType : String) (threshold : ℤ) :
    (∀ a, findAgentByExternal st developerId externalId = some a →
      a.status = .active →
      (verifyAgent st now developerId externalId actionType threshold).2.agents.length =
        st.agents.length ∧
      ∀ i (h1 : i < st.agents.length)
          (h2 : i <
            (verifyAgent st now developerId externalId actionType threshold).2.agents.length),
        ((st.agents[i].id = a.id →
           ((verifyAgent st now developerId externalId actionType
               threshold).2.agents[i].totalActions = st.agents[i].totalActions + 1 ∧
            (verifyAgent st now developerId externalId actionType
               threshold).2.agents[i].successfulActions = st.agents[i].successfulActions ∧
            (verifyAgent st now developerId externalId actionType
               threshold).2.agents[i].failedActions = st.agents[i].failedActions)) ∧
         (st.agents[i].id ≠ a.id →
           (verifyAgent st now developerId externalId actionType
               threshold).2.agents[i] = st.agents[i]))) ∧
    ((findAgentByExternal st developerId externalId = none →
       (verifyAgent st now developerId externalId actionType threshold).2.agents =
         st.agents) ∧
     (∀ a, findAgentByExternal st developerId externalId = some a →
       a.status = .banned ∨ a.status = .suspended →
       (verifyAgent st now developerId externalId actionType threshold).2.agents =
         st.agents)) := by
  refine ⟨?_, (verifyAgent_agents_char st now developerId externalId actionType threshold).1,
    fun a hf hbs =>
      ((verifyAgent_agents_char st now developerId externalId actionType threshold).2
        a hf).1 hbs⟩
  intro a hf ha
  have heq := ((verifyAgent_agents_char st now developerId externalId actionType
    threshold).2 a hf).2 ha
  rw [heq]
  constructor
  · simp [updateAgentRows]
  · intro i h1 h2
    have hlen : i < (updateAgentRows st.agents a.id bumpTotal).length := by
      simpa [updateAgentRows] using h1
    have hget : (updateAgentRows st.agents a.id bumpTotal)[i] =
        if (st.agents[i].id == a.id) = true then bumpTotal st.agents[i]
        else st.agents[i] := by
      simp [updateAgentRows]
    constructor
    · intro hid
      rw [hget, if_pos (by simpa using hid)]
      exact ⟨rfl, rfl, rfl⟩
    · intro hid
      rw [hget, if_neg (by simpa using hid)]

/-- A station used to witness C10: one active agent with nonzero counters. -/
def c10St : StationState :=
  { agents := [{ id := "A", externalId := "x", developerId := "d",
                 identityVerified := false, stakeAmount := 0, vouchCount := 0,
                 totalActions := 3, successfulActions := 2, failedActions := 1,
                 status := .active, createdAt := 0, reputationScore := 50 }],
    actions := [], certs := [], events := [], gatewayReports := [], nextActionId := 0 }

/-- Witness for C10 at a concrete station. -/
theorem verifyAgent_counter_effects_witness :
    (verifyAgent c10St 0 "d" "x" "t" 50).2.agents.length = c10St.agents.length :=
  ((verifyAgent_counter_effects c10St 0 "d" "x" "t" 50).1
    { id := "A", externalId := "x", developerId := "d",
      identityVerified := false, stakeAmount := 0, vouchCount := 0,
      totalActions := 3, successfulActions := 2, failedActions := 1,
      status := .active, createdAt := 0, reputationScore := 50 }
    (by decide) (by decide)).1

/-! ### JSON values and `JSON.stringify` with an array replacer

`BehaviorTracker.hashParams` computes
`md5(actionName + ":" + JSON.stringify(params, Object.keys(params).sort()))`.
`JSON.stringify` with an array replacer `K` serializes, at *every* object
level, exactly the properties whose key occurs in `K`, in the order of `K`
(ECMA-262 SerializeJSONObject with a PropertyList). Objects are key/value
lists in insertion order; numbers/strings are rendered by stand-in
formatters (only injectivity in the value matters here). -/

inductive JValue where
  | jnull
  | jbool (b : Bool)
  | jnum (q : ℚ)
  | jstr (s : String)
  | jarr (elems : List JValue)
  | jobj (fields : List (String × JValue))
deriving Repr

/-- Stand-in for JS string quoting inside JSON output. -/
def jsonQuote (s : String) : String := "\"" ++ s ++ "\""

/-- Lexicographic comparison of character lists by code point — the model of
the default `Array.prototype.sort` string comparison. -/
def charsLE : List Char → List Char → Bool
  | [], _ => true
  | _ :: _, [] => false
  | a :: as, b :: bs =>
    if a.toNat < b.toNat then true
    else if b.toNat < a.toNat then false
    else charsLE as bs

/-- Key ordering used by `Object.keys(params).sort()`. -/
def keyLE (a b : String) : Bool := charsLE a.data b.data

theorem charsLE_total (as bs : List Char) : charsLE as bs = true ∨ charsLE bs as = true := by
  induction as generalizing bs with
  | nil => left; rfl
  | cons a as ih =>
    cases bs with
    | nil => right; rfl
    | cons b bs =>
      by_cases hab : a.toNat < b.toNat
      · left; simp [charsLE, hab]
      · by_cases hba : b.toNat < a.toNat
        · right; simp [charsLE, hba, hab]
        · rcases ih bs with h | h
          · left; simp [charsLE, hab, hba, h]
          · right; simp [charsLE, hab, hba, h]

theorem charsLE_trans {as bs cs : List Char} (h1 : charsLE as bs = true)
    (h2 : charsLE bs cs = true) : charsLE as cs = true := by
  induction as generalizing bs cs with
  | nil => rfl
  | cons a as ih =>
    cases bs with
    | nil => simp [charsLE] at h1
    | cons b bs =>
      cases cs with
      | nil => simp [charsLE] at h2
      | cons c cs =>
        simp only [charsLE] at h1 h2 ⊢
        split_ifs at h1 h2 ⊢ <;>
          first
            | rfl
            | (exact ih h1 h2)
            | omega
            | simp at h1
            | simp at h2

theorem charsLE_antisymm {as bs : List Char} (h1 : charsLE as bs = true)
    (h2 : charsLE bs as = true) : as = bs := by
  induction as generalizing bs with
  | nil =>
    cases bs with
    | nil => rfl
    | cons b bs => simp [charsLE] at h2
  | cons a as ih =>
    cases bs with
    | nil => simp [charsLE] at h1
    | cons b bs =>
      simp only [charsLE] at h1 h2
      split_ifs at h1 h2 <;>
        first
          | omega
          | simp at h1
          | simp at h2
          | (have hn : a.toNat = b.toNat := by omega
             have hab : a = b := Char.eq_of_val_eq (UInt32.ext hn)
             rw [hab, ih h1 h2])

/-- The sort relation on keys as a `Prop`, for `List.insertionSort`. -/
def keyRel (a b : String) : Prop := keyLE a b = true

instance : DecidableRel keyRel := fun a b => by unfold keyRel; infer_instance

instance : IsTotal String keyRel := ⟨fun a b => charsLE_total a.data b.data⟩

instance : IsTrans String keyRel := ⟨fun _ _ _ h1 h2 => charsLE_trans h1 h2⟩

instance : IsAntisymm String keyRel :=
  ⟨fun a b h1 h2 => by
    have h := charsLE_antisymm h1 h2
    cases a; cases b; exact congrArg String.mk h⟩

/-- Property lookup: the JS object access `fields[k]` (keys are unique in a
JS object; on a list with duplicate keys this takes the first). -/
def findField (fields : List (String × JValue)) (k : String) :
    Option (String × JValue) :=
  fields.find? (fun p => p.1 == k)

mutual

/-- `JSON.stringify(v, K)` — ECMA-262 serialization with PropertyList `K`. -/
def stringifyWith (K : List String) (v : JValue) : String :=
  match v with
  | .jnull => "null"
  | .jbool b => cond b "true" "false"
  | .jnum q => toString q
  | .jstr s => jsonQuote s
  | .jarr xs => "[" ++ String.intercalate "," (stringifyElems K xs) ++ "]"
  | .jobj fields =>
    "\x7b" ++ String.intercalate "," (stringifyProps K K fields) ++ "\x7d"
termination_by (sizeOf v, 0)
decreasing_by
  · exact Prod.Lex.left _ _ (by simp +arith)
  · exact Prod.Lex.left _ _ (by simp +arith)

/-- Array elements are serialized in order, with the same PropertyList. -/
def stringifyElems (K : List String) (vs : List JValue) : List String :=
  match vs with
  | [] => []
  | v :: rest => stringifyWith K v :: stringifyElems K rest
termination_by (sizeOf vs, 0)
decreasing_by
  · exact Prod.Lex.left _ _ (by simp +arith)
  · exact Prod.Lex.left _ _ (by simp +arith)

/-- For each key of the PropertyList in order, serialize the property when
the object has it; at every nesting level the same list applies. -/
def stringifyProps (K : List String) (keys : List String)
    (fields : List (String × JValue)) : List String :=
  match keys with
  | [] => []
  | k :: ks =>
    match h : findField fields k with
    | some pr => (jsonQuote k ++ ":" ++ stringifyWith K pr.2) ::
        stringifyProps K ks fields
    | none => stringifyProps K ks fields
termination_by (sizeOf fields, sizeOf keys)
decreasing_by
  · have hm := List.mem_of_find?_eq_some h
    have hlt : sizeOf pr < sizeOf fields := List.sizeOf_lt_of_mem hm
    exact Prod.Lex.left _ _ (by
      obtain ⟨k1, v1⟩ := pr
      simp at hlt ⊢
      omega)
  · exact Prod.Lex.right _ (by simp +arith)
  · exact Prod.Lex.right _ (by simp +arith)

end

/-- `Object.keys(params).sort()`: the object's own keys, sorted by the
default string comparison. -/
def sortedKeys (fields : List (String × JValue)) : List String :=
  List.insertionSort keyRel (fields.map Prod.fst)

/-- `s.substring(0, n)`: the first `n` characters. -/
def strTake (s : String) (n : ℕ) : String := String.mk (s.data.take n)

/-- Embedding of `BehaviorTracker.hashParams` (behavior-tracker.ts lines
312–315): the canonical key string is
`actionName + ":" + JSON.stringify(params, Object.keys(params).sort())`, and
the fingerprint is the first 12 hex characters of its md5 digest. The digest
itself (node `crypto`) is a parameter of the embedding. -/
def hashParams (digest : String → String) (actionName : String)
    (params : List (String × JValue)) : String :=
  let key := actionName ++ ":" ++ stringifyWith (sortedKeys params) (.jobj params)
  strTake (digest key) 12

mutual

/-- Canonical form of a JSON value: every object's fields are sorted by key
(recursively). Two values have the same canonical form exactly when they
have identical content up to key insertion order. -/
def canon (v : JValue) : JValue :=
  match v with
  | .jnull => .jnull
  | .jbool b => .jbool b
  | .jnum q => .jnum q
  | .jstr s => .jstr s
  | .jarr xs => .jarr (canonElems xs)
  | .jobj fields =>
    .jobj (List.insertionSort (fun p q => keyRel p.1 q.1) (canonFields fields))

def canonElems (vs : List JValue) : List JValue :=
  match vs with
  | [] => []
  | v :: rest => canon v :: canonElems rest

def canonFields (fields : List (String × JValue)) : List (String × JValue) :=
  match fields with
  | [] => []
  | (k, v) :: rest => (k, canon v) :: canonFields rest

end

mutual

/-- Deep key-uniqueness: every object in the value has pairwise-distinct
keys (always true of values arising from JS objects). -/
def nodupKeysB (v : JValue) : Bool :=
  match v with
  | .jnull | .jbool _ | .jnum _ | .jstr _ => true
  | .jarr xs => nodupElemsB xs
  | .jobj fields => decide ((fields.map Prod.fst).Nodup) && nodupFieldsB fields

def nodupElemsB (vs : List JValue) : Bool :=
  match vs with
  | [] => true
  | v :: rest => nodupKeysB v && nodupElemsB rest

def nodupFieldsB (fields : List (String × JValue)) : Bool :=
  match fields with
  | [] => true
  | p :: rest => nodupKeysB p.2 && nodupFieldsB rest

end

theorem nodupFieldsB_mem {F : List (String × JValue)} (h : nodupFieldsB F = true) :
    ∀ p ∈ F, nodupKeysB p.2 = true := by
  induction F with
  | nil => intro p hp; cases hp
  | cons q rest ih =>
    intro p hp
    unfold nodupFieldsB at h
    rw [Bool.and_eq_true] at h
    rcases List.mem_cons.mp hp with rfl | hp'
    · exact h.1
    · exact ih h.2 p hp'

theorem nodupElemsB_mem {vs : List JValue} (h : nodupElemsB vs = true) :
    ∀ v ∈ vs, nodupKeysB v = true := by
  induction vs with
  | nil => intro v hv; cases hv
  | cons w rest ih =>
    intro v hv
    unfold nodupElemsB at h
    rw [Bool.and_eq_true] at h
    rcases List.mem_cons.mp hv with rfl | hv'
    · exact h.1
    · exact ih h.2 v hv'

theorem canonFields_map_fst (F : List (String × JValue)) :
    (canonFields F).map Prod.fst = F.map Prod.fst := by
  induction F with
  | nil => rfl
  | cons p rest ih =>
    obtain ⟨k, v⟩ := p
    simp [canonFields, ih]

theorem findField_canonFields (F : List (String × JValue)) (k : String) :
    findField (canonFields F) k =
      (findField F k).map (fun p => (p.1, canon p.2)) := by
  induction F with
  | nil => rfl
  | cons p rest ih =>
    obtain ⟨k0, v0⟩ := p
    cases hk : (k0 == k) with
    | true => simp [canonFields, findField, List.find?, hk]
    | false => simpa [canonFields, findField, List.find?, hk] using ih

theorem findField_perm {F G : List (String × JValue)} (h : F.Perm G)
    (hnd : (G.map Prod.fst).Nodup) (k : String) : findField F k = findField G k := by
  induction h with
  | nil => rfl
  | cons p h ih =>
    rename_i l1 l2
    have hnd' : (List.map Prod.fst l2).Nodup := by
      rw [List.map_cons] at hnd
      exact (List.nodup_cons.mp hnd).2
    cases hp : (p.1 == k) with
    | true => simp [findField, List.find?, hp]
    | false => simpa [findField, List.find?, hp] using ih hnd'
  | swap x y l =>
    rw [List.map_cons, List.map_cons] at hnd
    cases hx : (x.1 == k) with
    | true =>
      cases hy : (y.1 == k) with
      | true =>
        exfalso
        have hxy : x.1 = y.1 := by
          have h1 : x.1 = k := by simpa using hx
          have h2 : y.1 = k := by simpa using hy
          rw [h1, h2]
        exact (List.nodup_cons.mp hnd).1 (by simp [hxy])
      | false => simp [findField, List.find?, hx, hy]
    | false =>
      cases hy : (y.1 == k) with
      | true => simp [findField, List.find?, hx, hy]
      | false => simp [findField, List.find?, hx, hy]
  | trans h1 h2 ih1 ih2 =>
    have hnd2 := ((h2.map Prod.fst).nodup_iff).mpr hnd
    exact (ih1 hnd2).trans (ih2 hnd)

theorem stringifyProps_congr (K : List String) (F G : List (String × JValue))
    (hfind : ∀ k, findField G k = (findField F k).map (fun p => (p.1, canon p.2)))
    (hIH : ∀ p ∈ F, stringifyWith K p.2 = stringifyWith K (canon p.2)) :
    ∀ keys, stringifyProps K keys F = stringifyProps K keys G := by
  intro keys
  induction keys with
  | nil => simp [stringifyProps]
  | cons k ks ih =>
    simp only [stringifyProps]
    rw [hfind k]
    cases hF : findField F k with
    | none => simpa [hF] using ih
    | some pr =>
      have hmem : pr ∈ F := List.mem_of_find?_eq_some hF
      simp only [hF, Option.map]
      rw [hIH pr hmem, ih]

mutual

theorem stringify_canon (K : List String) (v : JValue) (h : nodupKeysB v = true) :
    stringifyWith K v = stringifyWith K (canon v) := by
  cases v with
  | jnull => simp [stringifyWith, canon]
  | jbool b => simp [stringifyWith, canon]
  | jnum q => simp [stringifyWith, canon]
  | jstr s => simp [stringifyWith, canon]
  | jarr xs =>
    have hx := stringifyElems_canon K xs (by simpa [nodupKeysB] using h)
    simp [stringifyWith, canon, hx]
  | jobj fields =>
    unfold nodupKeysB at h
    rw [Bool.and_eq_true, decide_eq_true_eq] at h
    have hfind : ∀ k,
        findField (List.insertionSort (fun p q => keyRel p.1 q.1)
          (canonFields fields)) k =
        (findField fields k).map (fun p => (p.1, canon p.2)) := by
      intro k
      rw [findField_perm (List.perm_insertionSort _ (canonFields fields))
        (by rw [canonFields_map_fst]; exact h.1) k]
      exact findField_canonFields fields k
    have hIH : ∀ p ∈ fields, stringifyWith K p.2 = stringifyWith K (canon p.2) :=
      fun p hp => stringify_canon K p.2 (nodupFieldsB_mem h.2 p hp)
    have hcongr := stringifyProps_congr K fields _ hfind hIH K
    simp [stringifyWith, canon, hcongr]
termination_by (sizeOf v, 0)
decreasing_by
  · subst_vars
    exact Prod.Lex.left _ _ (by simp +arith)
  · subst_vars
    refine Prod.Lex.left _ _ ?_
    have hlt := List.sizeOf_lt_of_mem hp
    obtain ⟨k1, v1⟩ := p
    simp at hlt ⊢
    omega

theorem stringifyElems_canon (K : List String) (vs : List JValue)
    (h : nodupElemsB vs = true) :
    stringifyElems K vs = stringifyElems K (canonElems vs) := by
  cases vs with
  | nil => simp [stringifyElems, canonElems]
  | cons v rest =>
    unfold nodupElemsB at h
    rw [Bool.and_eq_true] at h
    have h1 := stringify_canon K v h.1
    have h2 := stringifyElems_canon K rest h.2
    simp [stringifyElems, canonElems, h1, h2]
termination_by (sizeOf vs, 1)
decreasing_by
  · subst_vars
    exact Prod.Lex.left _ _ (by simp +arith)
  · subst_vars
    exact Prod.Lex.left _ _ (by simp +arith)

end

/-- Sorting is a function of the key multiset: permuted inputs sort equally. -/
theorem insertionSort_keys_perm_eq {l1 l2 : List String} (h : l1.Perm l2) :
    List.insertionSort keyRel l1 = List.insertionSort keyRel l2 :=
  List.eq_of_perm_of_sorted
    ((List.perm_insertionSort keyRel l1).trans
      (h.trans (List.perm_insertionSort keyRel l2).symm))
    (List.sorted_insertionSort keyRel l1)
    (List.sorted_insertionSort keyRel l2)

/-- Objects with equal canonical forms have permuted key lists. -/
theorem canon_keys_perm {F G : List (String × JValue)}
    (h : canon (.jobj F) = canon (.jobj G)) :
    (F.map Prod.fst).Perm (G.map Prod.fst) := by
  simp only [canon, JValue.jobj.injEq] at h
  have hmap : (List.insertionSort (fun p q => keyRel p.1 q.1)
      (canonFields F)).map Prod.fst =
      (List.insertionSort (fun p q => keyRel p.1 q.1) (canonFields G)).map Prod.fst := by
    rw [h]
  have q1 := (List.perm_insertionSort (fun p q => keyRel p.1 q.1)
    (canonFields F)).map Prod.fst
  have q2 := (List.perm_insertionSort (fun p q => keyRel p.1 q.1)
    (canonFields G)).map Prod.fst
  have q1' := q1.symm
  rw [hmap] at q1'
  rw [← canonFields_map_fst F, ← canonFields_map_fst G]
  exact q1'.trans q2

/-- C8: the params fingerprint is canonical — for every digest function,
action name and every two params objects with identical content but
different key insertion order (equal canonical forms, unique keys at every
level), `hashParams` produces the identical fingerprint; and when the digest
emits at least 12 characters (md5 hex emits 32) the fingerprint has exactly
12 characters. -/
theorem hashParams_canonical (digest : String → String) (actionName : String)
    (p1 p2 : List (String × JValue))
    (h1 : nodupKeysB (.jobj p1) = true) (h2 : nodupKeysB (.jobj p2) = true)
    (hequiv : canon (.jobj p1) = canon (.jobj p2))
    (hdigest : ∀ s, 12 ≤ (digest s).length) :
    hashParams digest actionName p1 = hashParams digest actionName p2 ∧
    (hashParams digest actionName p1).length = 12 := by
  have hkeys : sortedKeys p1 = sortedKeys p2 :=
    insertionSort_keys_perm_eq (canon_keys_perm hequiv)
  have hstr : stringifyWith (sortedKeys p1) (.jobj p1) =
      stringifyWith (sortedKeys p2) (.jobj p2) := by
    rw [stringify_canon (sortedKeys p1) (.jobj p1) h1, hequiv, hkeys,
      ← stringify_canon (sortedKeys p2) (.jobj p2) h2]
  constructor
  · unfold hashParams
    rw [hstr]
  · show (strTake (digest (actionName ++ ":" ++
        stringifyWith (sortedKeys p1) (.jobj p1))) 12).length = 12
    have := hdigest (actionName ++ ":" ++ stringifyWith (sortedKeys p1) (.jobj p1))
    unfold strTake
    simp only [String.length]
    rw [List.length_take]
    simp only [String.length] at this
    omega

/-- A stand-in digest with 32-hex output, used to witness C8. -/
def c8Digest : String → String := fun _ => "0123456789abcdef0123456789abcdef"

/-- Witness for C8: two objects with the same content, reordered at both
nesting levels, fingerprint identically. -/
theorem hashParams_canonical_witness :
    hashParams c8Digest "search"
        [("b", .jnum 1), ("a", .jobj [("y", .jbool true), ("x", .jnull)])] =
      hashParams c8Digest "search"
        [("a", .jobj [("x", .jnull), ("y", .jbool true)]), ("b", .jnum 1)] ∧
    (hashParams c8Digest "search"
        [("b", .jnum 1), ("a", .jobj [("y", .jbool true), ("x", .jnull)])]).length = 12 :=
  hashParams_canonical c8Digest "search"
    [("b", .jnum 1), ("a", .jobj [("y", .jbool true), ("x", .jnull)])]
    [("a", .jobj [("x", .jnull), ("y", .jbool true)]), ("b", .jnum 1)]
    (by decide) (by decide) (by rfl)
    (fun s =>
      show 12 ≤ ("0123456789abcdef0123456789abcdef" : String).length by decide)

/-! ### Behavior tracker (`packages/gateway/src/behavior-tracker.ts`) -/

inductive BehaviorFlag
  | rapid_fire
  | high_failure_rate
  | action_enumeration
  | repeated_action
  | scope_violation
  | burst_detected
  | session_anomaly
deriving DecidableEq, Repr

structure SessionAction where
  actionName : String
  paramsHash : String
  success : Bool
  scopeViolation : Bool
  timestamp : ℤ
deriving DecidableEq, Repr

structure AgentSession where
  agentId : String
  externalId : String
  startedAt : ℤ
  lastActivityAt : ℤ
  behaviorScore : ℤ
  actions : List SessionAction
  /-- the `Set<BehaviorFlag>`; membership is what matters -/
  flags : List BehaviorFlag
  blocked : Bool
deriving DecidableEq, Repr

/-- Tracker knobs, with the source's defaults; counts and the penalty are
non-negative integers as configured in practice. -/
structure BehaviorConfig where
  enabled : Bool
  sessionTimeout : ℤ
  maxActionsPerMinute : ℕ
  maxFailuresBeforeFlag : ℕ
  maxUniqueActionsPerMinute : ℕ
  maxRepeatedActionsPerMinute : ℕ
  violationPenalty : ℕ
  blockThreshold : ℤ
deriving DecidableEq, Repr

/-- Constructor defaults (behavior-tracker.ts lines 33–44). -/
def defaultBehaviorConfig : BehaviorConfig :=
  { enabled := true, sessionTimeout := 300000, maxActionsPerMinute := 30,
    maxFailuresBeforeFlag := 5, maxUniqueActionsPerMinute := 10,
    maxRepeatedActionsPerMinute := 10, violationPenalty := 10, blockThreshold := 20 }

/-- Check 1: actions within the trailing 60 s window exceed the limit. -/
def checkRapidFire (cfg : BehaviorConfig) (session : AgentSession) (now : ℤ) : Bool :=
  decide ((session.actions.filter
    (fun a => decide (now - 60000 < a.timestamp))).length > cfg.maxActionsPerMinute)

/-- Check 2: total session failures reach the limit. -/
def checkHighFailureRate (cfg : BehaviorConfig) (session : AgentSession) : Bool :=
  decide ((session.actions.filter (fun a => !a.success)).length ≥
    cfg.maxFailuresBeforeFlag)

/-- Check 3: distinct action names in the trailing window exceed the limit
(the JS `Set` size is the number of distinct names). -/
def checkActionEnumeration (cfg : BehaviorConfig) (session : AgentSession)
    (now : ℤ) : Bool :=
  decide ((((session.actions.filter
    (fun a => decide (now - 60000 < a.timestamp))).map
      (fun a => a.actionName)).dedup).length > cfg.maxUniqueActionsPerMinute)

/-- Check 4: some params fingerprint repeats beyond the limit in the trailing
window (the JS code tallies a count per fingerprint and tests each tally;
testing each occurrence's tally is the same predicate). -/
def checkRepeatedActions (cfg : BehaviorConfig) (session : AgentSession)
    (now : ℤ) : Bool :=
  let recent := session.actions.filter (fun a => decide (now - 60000 < a.timestamp))
  recent.any (fun a =>
    decide ((recent.filter (fun b => b.paramsHash == a.paramsHash)).length >
      cfg.maxRepeatedActionsPerMinute))

/-- Check 6: ≥ 6 recorded actions, a gap > 30 s before the last five, and the
last five spanning < 5 s. -/
def checkBurstPattern (session : AgentSession) (now : ℤ) : Bool :=
  let actions := session.actions
  if actions.length < 5 then false
  else if actions.length < 6 then false
  else
    let lastFive := actions.drop (actions.length - 5)
    match actions.get? (actions.length - 6), lastFive.head?, lastFive.getLast? with
    | some sixth, some first, some last =>
      decide (30000 < first.timestamp - sixth.timestamp) &&
        decide (last.timestamp - first.timestamp < 5000)
    | _, _, _ => false

/-- The detector pass of `recordAction` (lines 100–131), in source order;
check 5 is the unconditional `scope_violation` push when `scoreMet` is false. -/
def computeNewFlags (cfg : BehaviorConfig) (session : AgentSession) (now : ℤ)
    (scoreMet : Bool) : List BehaviorFlag :=
  (if checkRapidFire cfg session now then [.rapid_fire] else []) ++
  (if checkHighFailureRate cfg session then [.high_failure_rate] else []) ++
  (if checkActionEnumeration cfg session now then [.action_enumeration] else []) ++
  (if checkRepeatedActions cfg session now then [.repeated_action] else []) ++
  (if !scoreMet then [.scope_violation] else []) ++
  (if checkBurstPattern session now then [.burst_detected] else [])

/-- First penalty loop (lines 133–153): for each flag not yet in the session's
flag set, add it, clamp-subtract the full penalty, and emit a `BehaviorEvent`
(events are recorded here as the list of flags emitted, in order). Returns
(flag set, score, emitted events). -/
def applyNewFlagPenalties (p : ℕ) (nf : List BehaviorFlag)
    (flags : List BehaviorFlag) (score : ℤ) :
    List BehaviorFlag × ℤ × List BehaviorFlag :=
  match nf with
  | [] => (flags, score, [])
  | f :: rest =>
    if f ∈ flags then applyNewFlagPenalties p rest flags score
    else
      let out := applyNewFlagPenalties p rest (f :: flags) (max 0 (score - p))
      (out.1, out.2.1, f :: out.2.2)

/-- Second penalty loop (lines 156–161): every flag of this pass that is in
the (already updated) flag set and is not `scope_violation` costs
`floor(violationPenalty / 2)` more. -/
def applyRepeatPenalties (p : ℕ) (nf : List BehaviorFlag)
    (flags1 : List BehaviorFlag) (score : ℤ) : ℤ :=
  match nf with
  | [] => score
  | f :: rest =>
    if f ∈ flags1 ∧ f ≠ .scope_violation then
      applyRepeatPenalties p rest flags1 (max 0 (score - (p / 2 : ℕ)))
    else applyRepeatPenalties p rest flags1 score

/-- Third penalty step (lines 164–166): a scope violation always costs the
full penalty once more. -/
def applyScopePenalty (p : ℕ) (scoreMet : Bool) (flags1 : List BehaviorFlag)
    (score : ℤ) : ℤ :=
  if !scoreMet && decide (BehaviorFlag.scope_violation ∈ flags1) then
    max 0 (score - p)
  else score

/-- A fresh session (lines 71–80). -/
def freshSession (agentId externalId : String) (now : ℤ) : AgentSession :=
  { agentId, externalId, startedAt := now, lastActivityAt := now,
    behaviorScore := 100, actions := [], flags := [], blocked := false }

/-- Appending the recorded action (lines 85–93): the `SessionAction` record
and the `lastActivityAt` update. -/
def appendedSession (digest : String → String) (session : AgentSession)
    (actionName : String) (params : List (String × JValue))
    (success scoreMet : Bool) (now : ℤ) : AgentSession :=
  { session with
    actions := session.actions ++
      [{ actionName := actionName,
         paramsHash := hashParams digest actionName params,
         success := success, scopeViolation := !scoreMet, timestamp := now }],
    lastActivityAt := now }

structure RecordOutcome where
  behaviorScore : ℤ
  flags : List BehaviorFlag
  blocked : Bool
  /-- flags for which a `BehaviorEvent` was emitted this pass, in order -/
  events : List BehaviorFlag
deriving DecidableEq, Repr

/-- The body of `BehaviorTracker.recordAction` after the session has been
resolved (lines 80–178): append the action, honour an existing block, run the
detectors and the three penalty phases, and re-evaluate the block threshold. -/
def recordActionOn (digest : String → String) (cfg : BehaviorConfig)
    (session : AgentSession) (actionName : String)
    (params : List (String × JValue)) (success scoreMet : Bool) (now : ℤ) :
    RecordOutcome × Option AgentSession :=
  let s1 := appendedSession digest session actionName params success scoreMet now
  if s1.blocked then
    ({ behaviorScore := s1.behaviorScore, flags := s1.flags, blocked := true,
       events := [] }, some s1)
  else
    let nf := computeNewFlags cfg s1 now scoreMet
    let r1 := applyNewFlagPenalties cfg.violationPenalty nf s1.flags s1.behaviorScore
    let score2 := applyRepeatPenalties cfg.violationPenalty nf r1.1 r1.2.1
    let score3 := applyScopePenalty cfg.violationPenalty scoreMet r1.1 score2
    let blocked := decide (score3 ≤ cfg.blockThreshold)
    let s2 := { s1 with flags := r1.1, behaviorScore := score3, blocked := blocked }
    ({ behaviorScore := score3, flags := nf, blocked := blocked,
       events := r1.2.2 }, some s2)

/-- Embedding of `BehaviorTracker.recordAction` (lines 54–178) for one agent:
the tracker's per-agent map entry is the `Option AgentSession` threaded in
and out; `digest` is the md5 stand-in used by `hashParams`. -/
def recordAction (digest : String → String) (cfg : BehaviorConfig)
    (sessionOpt : Option AgentSession) (agentId externalId actionName : String)
    (params : List (String × JValue)) (success scoreMet : Bool) (now : ℤ) :
    RecordOutcome × Option AgentSession :=
  if !cfg.enabled then
    ({ behaviorScore := 100, flags := [], blocked := false, events := [] }, sessionOpt)
  else
    let session :=
      match sessionOpt with
      | some s =>
        if now - s.lastActivityAt > cfg.sessionTimeout then
          freshSession agentId externalId now
        else s
      | none => freshSession agentId externalId now
    recordActionOn digest cfg session actionName params success scoreMet now

/-- `BehaviorTracker.isBlocked` (lines 183–186). -/
def isBlocked (sessionOpt : Option AgentSession) : Bool :=
  match sessionOpt with
  | some s => s.blocked
  | none => false

/-! ### C2: the penalty arithmetic of one `recordAction` pass -/

/-- Characterization of the first penalty loop: each genuinely new flag costs
the full penalty (clamped at 0), is added to the flag set, and emits one
event; flags already present are skipped. -/
theorem applyNewFlagPenalties_char (p : ℕ) (nf : List BehaviorFlag) :
    ∀ (flags : List BehaviorFlag) (score : ℤ), 0 ≤ score → nf.Nodup →
    (applyNewFlagPenalties p nf flags score).2.1 =
        max 0 (score - (p : ℤ) *
          ((nf.filter (fun f => decide (¬ f ∈ flags))).length : ℤ)) ∧
    (applyNewFlagPenalties p nf flags score).2.2 =
        nf.filter (fun f => decide (¬ f ∈ flags)) ∧
    ∀ x, x ∈ (applyNewFlagPenalties p nf flags score).1 ↔ x ∈ flags ∨ x ∈ nf := by
  induction nf with
  | nil =>
    intro flags score h0 _
    refine ⟨by simp [applyNewFlagPenalties]; omega,
      by simp [applyNewFlagPenalties], fun x => by simp [applyNewFlagPenalties]⟩
  | cons f rest ih =>
    intro flags score h0 hnd
    obtain ⟨hf, hnd'⟩ := List.nodup_cons.mp hnd
    by_cases hmem : f ∈ flags
    · have IH := ih flags score h0 hnd'
      have hcond : (fun g => decide (¬ g ∈ flags)) f = false := by simpa using hmem
      have hdrop : (f :: rest).filter (fun g => decide (¬ g ∈ flags)) =
          rest.filter (fun g => decide (¬ g ∈ flags)) :=
        List.filter_cons_of_neg (by simp [hcond])
      refine ⟨?_, ?_, ?_⟩
      · simp only [applyNewFlagPenalties, if_pos hmem, hdrop]
        exact IH.1
      · simp only [applyNewFlagPenalties, if_pos hmem, hdrop]
        exact IH.2.1
      · intro x
        simp only [applyNewFlagPenalties, if_pos hmem]
        rw [IH.2.2 x]
        constructor
        · rintro (h | h)
          · exact Or.inl h
          · exact Or.inr (List.mem_cons_of_mem f h)
        · rintro (h | h)
          · exact Or.inl h
          · rcases List.mem_cons.mp h with rfl | h'
            · exact Or.inl hmem
            · exact Or.inr h'
    · have h0' : (0 : ℤ) ≤ max 0 (score - p) := le_max_left 0 _
      have IH := ih (f :: flags) (max 0 (score - p)) h0' hnd'
      have hfilter : rest.filter (fun g => decide (¬ g ∈ f :: flags)) =
          rest.filter (fun g => decide (¬ g ∈ flags)) := by
        apply List.filter_congr
        intro x hx
        have hxf : x ≠ f := fun he => hf (he ▸ hx)
        simp [List.mem_cons, hxf]
      have hcond : (fun g => decide (¬ g ∈ flags)) f = true := by simpa using hmem
      have hkeep : (f :: rest).filter (fun g => decide (¬ g ∈ flags)) =
          f :: rest.filter (fun g => decide (¬ g ∈ flags)) :=
        List.filter_cons_of_pos (by simp [hcond])
      refine ⟨?_, ?_, ?_⟩
      · simp only [applyNewFlagPenalties, if_neg hmem, hkeep]
        rw [IH.1, hfilter]
        simp only [List.length_cons]
        push_cast
        set n : ℤ := ((rest.filter (fun g => decide (¬ g ∈ flags))).length : ℤ) with hn
        have hn0 : 0 ≤ n := hn ▸ Int.natCast_nonneg _
        have hX : 0 ≤ (p : ℤ) * n := mul_nonneg (Int.natCast_nonneg _) hn0
        have hmul : (p : ℤ) * (n + 1) = (p : ℤ) * n + (p : ℤ) := by ring
        rw [hmul]
        omega
      · simp only [applyNewFlagPenalties, if_neg hmem, hkeep]
        rw [IH.2.1, hfilter]
      · intro x
        simp only [applyNewFlagPenalties, if_neg hmem]
        rw [IH.2.2 x]
        constructor
        · rintro (h | h)
          · rcases List.mem_cons.mp h with rfl | h'
            · exact Or.inr (List.mem_cons_self x rest)
            · exact Or.inl h'
          · exact Or.inr (List.mem_cons_of_mem f h)
        · rintro (h | h)
          · exact Or.inl (List.mem_cons_of_mem f h)
          · rcases List.mem_cons.mp h with rfl | h'
            · exact Or.inl (List.mem_cons_self x flags)
            · exact Or.inr h'

/-- Characterization of the second loop: every flag of the pass (all of which
are in the updated flag set) except `scope_violation` costs `⌊p/2⌋` more. -/
theorem applyRepeatPenalties_char (p : ℕ) (nf : List BehaviorFlag)
    (flags1 : List BehaviorFlag) :
    ∀ (score : ℤ), 0 ≤ score → (∀ f ∈ nf, f ∈ flags1) →
    applyRepeatPenalties p nf flags1 score =
      max 0 (score - ((p / 2 : ℕ) : ℤ) *
        ((nf.filter (fun f => decide (f ≠ .scope_violation))).length : ℤ)) := by
  induction nf with
  | nil => intro score h0 _; simp [applyRepeatPenalties]; omega
  | cons f rest ih =>
    intro score h0 hsub
    have hmem : f ∈ flags1 := hsub f (List.mem_cons_self f rest)
    have hsub' : ∀ g ∈ rest, g ∈ flags1 :=
      fun g hg => hsub g (List.mem_cons_of_mem f hg)
    by_cases hsc : f = BehaviorFlag.scope_violation
    · have hcond : ¬ (f ∈ flags1 ∧ f ≠ .scope_violation) := by simp [hsc]
      have hfc : (fun g => decide (g ≠ BehaviorFlag.scope_violation)) f = false := by
        simpa using hsc
      have hdrop : (f :: rest).filter (fun g => decide (g ≠ BehaviorFlag.scope_violation)) =
          rest.filter (fun g => decide (g ≠ BehaviorFlag.scope_violation)) :=
        List.filter_cons_of_neg (by simp [hfc])
      simp only [applyRepeatPenalties, if_neg hcond, hdrop]
      exact ih score h0 hsub'
    · have hcond : f ∈ flags1 ∧ f ≠ .scope_violation := ⟨hmem, hsc⟩
      have hfc : (fun g => decide (g ≠ BehaviorFlag.scope_violation)) f = true := by
        simpa using hsc
      have hkeep : (f :: rest).filter (fun g => decide (g ≠ BehaviorFlag.scope_violation)) =
          f :: rest.filter (fun g => decide (g ≠ BehaviorFlag.scope_violation)) :=
        List.filter_cons_of_pos (by simp [hfc])
      simp only [applyRepeatPenalties, if_pos hcond, hkeep]
      rw [ih (max 0 (score - (p / 2 : ℕ))) (le_max_left 0 _) hsub']
      simp only [List.length_cons]
      push_cast
      set n : ℤ :=
        ((rest.filter (fun g => decide (g ≠ BehaviorFlag.scope_violation))).length : ℤ)
        with hn
      have hn0 : 0 ≤ n := hn ▸ Int.natCast_nonneg _
      have hd0 : (0 : ℤ) ≤ (p : ℤ) / 2 := Int.ediv_nonneg (Int.natCast_nonneg _) (by norm_num)
      have hX : 0 ≤ (p : ℤ) / 2 * n := mul_nonneg hd0 hn0
      have hmul : (p : ℤ) / 2 * (n + 1) = (p : ℤ) / 2 * n + (p : ℤ) / 2 := by ring
      rw [hmul]
      omega

/-- The detector pass never raises a flag twice. -/
theorem computeNewFlags_nodup (cfg : BehaviorConfig) (session : AgentSession)
    (now : ℤ) (scoreMet : Bool) : (computeNewFlags cfg session now scoreMet).Nodup := by
  unfold computeNewFlags
  cases checkRapidFire cfg session now <;>
    cases checkHighFailureRate cfg session <;>
    cases checkActionEnumeration cfg session now <;>
    cases checkRepeatedActions cfg session now <;>
    cases scoreMet <;>
    cases checkBurstPattern session now <;>
    decide

/-- `scope_violation` is among the pass's flags when the score was not met. -/
theorem scope_mem_computeNewFlags (cfg : BehaviorConfig) (session : AgentSession)
    (now : ℤ) : BehaviorFlag.scope_violation ∈ computeNewFlags cfg session now false := by
  simp [computeNewFlags]

set_option maxHeartbeats 1000000 in
/-- C2 (amended): on a live non-blocked session, one `recordAction` pass
charges, starting from the session's score and clamping at 0 throughout:
the full `violationPenalty` for each flag of the pass not already in the
session's flag set (each such flag also emits exactly one `BehaviorEvent`),
plus `⌊violationPenalty/2⌋` for *every* non-`scope_violation` flag of the
pass — new or recurring — plus one further full `violationPenalty` whenever
`scoreMet` is false; the resulting score is never below 0. In particular a
first-time non-scope flag costs `penalty + ⌊penalty/2⌋`, not just `penalty`,
and a first-time scope violation costs `2 × penalty`. -/
theorem recordAction_penalty_formula
    (digest : String → String) (cfg : BehaviorConfig) (s : AgentSession)
    (agentId externalId actionName : String) (params : List (String × JValue))
    (success scoreMet : Bool) (now : ℤ)
    (hen : cfg.enabled = true)
    (hlive : ¬ (now - s.lastActivityAt > cfg.sessionTimeout))
    (hnb : s.blocked = false)
    (h0 : 0 ≤ s.behaviorScore) :
    (recordAction digest cfg (some s) agentId externalId actionName params
        success scoreMet now).1.behaviorScore =
      max 0 (s.behaviorScore -
        ((cfg.violationPenalty : ℤ) *
          (((computeNewFlags cfg
              (appendedSession digest s actionName params success scoreMet now)
              now scoreMet).filter
                (fun f => decide (¬ f ∈ s.flags))).length : ℤ) +
         ((cfg.violationPenalty / 2 : ℕ) : ℤ) *
          (((computeNewFlags cfg
              (appendedSession digest s actionName params success scoreMet now)
              now scoreMet).filter
                (fun f => decide (f ≠ .scope_violation))).length : ℤ) +
         (if scoreMet then 0 else (cfg.violationPenalty : ℤ)))) ∧
    (recordAction digest cfg (some s) agentId externalId actionName params
        success scoreMet now).1.events =
      (computeNewFlags cfg
          (appendedSession digest s actionName params success scoreMet now)
          now scoreMet).filter (fun f => decide (¬ f ∈ s.flags)) ∧
    0 ≤ (recordAction digest cfg (some s) agentId externalId actionName params
        success scoreMet now).1.behaviorScore := by
  have hs1b : (appendedSession digest s actionName params success scoreMet now).blocked
      = false := hnb
  set s1 := appendedSession digest s actionName params success scoreMet now with hs1
  set nf := computeNewFlags cfg s1 now scoreMet with hnf
  have hr := applyNewFlagPenalties_char cfg.violationPenalty nf s.flags
    s.behaviorScore h0 (computeNewFlags_nodup cfg s1 now scoreMet)
  set r1 := applyNewFlagPenalties cfg.violationPenalty nf s.flags s.behaviorScore
    with hr1
  have h1nonneg : 0 ≤ r1.2.1 := by rw [hr.1]; exact le_max_left 0 _
  have hsub : ∀ f ∈ nf, f ∈ r1.1 := fun f hf => (hr.2.2 f).mpr (Or.inr hf)
  have h2 := applyRepeatPenalties_char cfg.violationPenalty nf r1.1 r1.2.1
    h1nonneg hsub
  set score2 := applyRepeatPenalties cfg.violationPenalty nf r1.1 r1.2.1 with hsc2
  have h2nonneg : 0 ≤ score2 := by rw [h2]; exact le_max_left 0 _
  set score3 := applyScopePenalty cfg.violationPenalty scoreMet r1.1 score2 with hsc3
  have hresult :
      (recordAction digest cfg (some s) agentId externalId actionName params
        success scoreMet now).1 =
      { behaviorScore := score3, flags := nf,
        blocked := decide (score3 ≤ cfg.blockThreshold), events := r1.2.2 } := by
    have hstep : recordAction digest cfg (some s) agentId externalId actionName
        params success scoreMet now =
        recordActionOn digest cfg
          (if now - s.lastActivityAt > cfg.sessionTimeout then
            freshSession agentId externalId now
          else s) actionName params success scoreMet now := by
      unfold recordAction
      rw [hen]
      rfl
    rw [hstep, if_neg hlive]
    unfold recordActionOn
    dsimp only
    rw [show (appendedSession digest s actionName params success scoreMet now).blocked
        = false from hnb]
    rfl
  rw [hresult]
  refine ⟨?_, hr.2.1, ?_⟩
  · show score3 = _
    have hA0 : (0:ℤ) ≤ (cfg.violationPenalty : ℤ) *
        ((nf.filter (fun f => decide (¬ f ∈ s.flags))).length : ℤ) :=
      mul_nonneg (Int.natCast_nonneg _) (Int.natCast_nonneg _)
    have hB0 : (0:ℤ) ≤ ((cfg.violationPenalty / 2 : ℕ) : ℤ) *
        ((nf.filter (fun f => decide (f ≠ .scope_violation))).length : ℤ) :=
      mul_nonneg (Int.natCast_nonneg _) (Int.natCast_nonneg _)
    have hp0 : (0:ℤ) ≤ (cfg.violationPenalty : ℤ) := Int.natCast_nonneg _
    cases hsm : scoreMet with
    | true =>
      have he : score3 = score2 := by rw [hsc3, hsm]; rfl
      rw [he, h2, hr.1]
      rw [show (if (true = true) then (0:ℤ) else (cfg.violationPenalty : ℤ)) = 0
        from if_pos rfl]
      omega
    | false =>
      have hscope : BehaviorFlag.scope_violation ∈ r1.1 :=
        (hr.2.2 _).mpr (Or.inr (by
          rw [hnf, hsm]; exact scope_mem_computeNewFlags cfg s1 now))
      have he : score3 = max 0 (score2 - cfg.violationPenalty) := by
        rw [hsc3, hsm]
        unfold applyScopePenalty
        rw [if_pos (by simp [hscope])]
      rw [he, h2, hr.1]
      simp only [Bool.false_eq_true, if_false]
      omega
  · show 0 ≤ score3
    rw [hsc3]
    unfold applyScopePenalty
    split_ifs
    · exact le_max_left 0 _
    · exact h2nonneg

/-- Witness for C2: the penalty formula instantiated on a fresh live session
recording one successful in-scope action under the default configuration. -/
theorem recordAction_penalty_formula_witness :
    0 ≤ (recordAction (fun _ => "h") defaultBehaviorConfig
        (some (freshSession "A" "x" 0)) "A" "x" "act" [] true true
        0).1.behaviorScore :=
  (recordAction_penalty_formula (fun _ => "h") defaultBehaviorConfig
      (freshSession "A" "x" 0) "A" "x" "act" [] true true 0
      (by decide) (by decide) (by decide) (by decide)).2.2

/-- C2 counterexample to the claim as stated: with `maxActionsPerMinute := 0`
a single action on a fresh session raises `rapid_fire` as a *new* flag, yet
the score drops from 100 to 85, not to 90: the first penalty loop charges the
full `violationPenalty` (10) and adds the flag to the session's flag set, and
the second loop then finds the flag present and charges `⌊10/2⌋ = 5` again in
the same pass, so a newly raised flag is not decremented "by exactly
violationPenalty (once)". -/
theorem new_flag_double_charged :
    (recordAction (fun _ => "h")
        { defaultBehaviorConfig with maxActionsPerMinute := 0 }
        none "A" "x" "act" [] true true 0).1.behaviorScore = 85 ∧
      (85 : ℤ) ≠ 100 - 10 := by
  constructor
  · decide
  · decide

/-! ### C3: `blocked` is absorbing within a session

One call of `recordAction` per element of a trace; `withinTraceB` says every
gap stays within `sessionTimeout` so the session is never replaced by a fresh
one. The gateway's protected route (part_002, lines 130–330) is embedded with
the station reporting, the ML verdict (`mlAnalyzer.isAvailable()` /
`analyzeRequest(...).safe`) and the handler outcome
(`(await actionRegistry.execute(...)).success`) abstracted as parameters;
`executeCalled` records whether `actionRegistry.execute` was reached. -/

structure TrackCall where
  actionName : String
  params : List (String × JValue)
  success : Bool
  scoreMet : Bool
  now : ℤ
deriving Repr

/-- Iterate `recordAction` over a trace of calls for one agent. -/
def runTrace (digest : String → String) (cfg : BehaviorConfig)
    (agentId externalId : String) :
    Option AgentSession → List TrackCall → Option AgentSession
  | sessionOpt, [] => sessionOpt
  | sessionOpt, c :: cs =>
    runTrace digest cfg agentId externalId
      (recordAction digest cfg sessionOpt agentId externalId c.actionName
        c.params c.success c.scoreMet c.now).2 cs

/-- Every gap in the trace is within `sessionTimeout` of the previous
activity (`last` starts as the session's `lastActivityAt`). -/
def withinTraceB (cfg : BehaviorConfig) : ℤ → List TrackCall → Bool
  | _, [] => true
  | last, c :: cs =>
    !decide (c.now - last > cfg.sessionTimeout) && withinTraceB cfg c.now cs

/-- The `lastActivityAt` value after a trace. -/
def lastNow (d : ℤ) : List TrackCall → ℤ
  | [] => d
  | c :: cs => lastNow c.now cs

structure GatewayResponse where
  status : ℕ
  executeCalled : Bool
deriving DecidableEq, Repr

/-- `ActionRegistry.getAction`: the registry as an association list from
action name to `minScore` (the handler is abstracted elsewhere). -/
def lookupAction (registry : List (String × ℤ)) (name : String) : Option ℤ :=
  match registry with
  | [] => none
  | (n, m) :: rest => if n == name then some m else lookupAction rest name

/-- The route's scope gate: a declared non-empty scope that does not list the
action (part_002 lines 185–232). -/
def scopeExcludes (scope : Option (List String)) (actionName : String) : Bool :=
  match scope with
  | some l => decide (l ≠ []) && !(l.contains actionName)
  | none => false

/-- The protected `POST /actions/:actionName` route (part_002 lines 130–330)
for one agent: blocked check, 404 lookup, scope gate, ML gate, then
execution with behavioral recording and the block re-check. -/
def handleActionRequest (digest : String → String) (cfg : BehaviorConfig)
    (registry : List (String × ℤ)) (mlAvailable mlSafe execSuccess : Bool)
    (sessionOpt : Option AgentSession) (cert : CertPayload)
    (actionName : String) (params : List (String × JValue)) (now : ℤ) :
    GatewayResponse × Option AgentSession :=
  if isBlocked sessionOpt then
    ({ status := 403, executeCalled := false }, sessionOpt)
  else
    match lookupAction registry actionName with
    | none =>
      ({ status := 404, executeCalled := false },
       (recordAction digest cfg sessionOpt cert.sub cert.agentExternalId
         actionName params false false now).2)
    | some minScore =>
      if scopeExcludes cert.scope actionName then
        ({ status := 403, executeCalled := false },
         (recordAction digest cfg sessionOpt cert.sub cert.agentExternalId
           actionName params false false now).2)
      else if mlAvailable && !mlSafe then
        ({ status := 403, executeCalled := false },
         (recordAction digest cfg sessionOpt cert.sub cert.agentExternalId
           actionName params false false now).2)
      else
        let scoreMet := decide (cert.score ≥ minScore)
        let b := recordAction digest cfg sessionOpt cert.sub cert.agentExternalId
          actionName params execSuccess scoreMet now
        if (b.1).blocked then ({ status := 403, executeCalled := true }, b.2)
        else if execSuccess then ({ status := 200, executeCalled := true }, b.2)
        else ({ status := 403, executeCalled := true }, b.2)

/-- A blocked session used to witness C3. -/
def c3Blocked : AgentSession :=
  { agentId := "A", externalId := "x", startedAt := 0, lastActivityAt := 0,
    behaviorScore := 10, actions := [], flags := [BehaviorFlag.rapid_fire],
    blocked := true }

/-- A certificate payload used to witness C3. -/
def c3Cert : CertPayload :=
  { sub := "A", agentExternalId := "x", developerId := "d", score := 80,
    identityVerified := true, status := .active, totalActions := 0,
    successRate := none, scope := none, iss := "agent-trust-station",
    jti := "j1", iat := 0, exp := 10 }

/-- One `recordAction` call on a blocked, unexpired session: the action is
appended and the call returns at lines 96–98 of behavior-tracker.ts with the
session's score and flags unchanged and no events. -/
theorem recordAction_blocked_step (digest : String → String)
    (cfg : BehaviorConfig) (agentId externalId actionName : String)
    (params : List (String × JValue)) (success scoreMet : Bool) (now : ℤ)
    (s : AgentSession) (hen : cfg.enabled = true) (hb : s.blocked = true)
    (hw : ¬ (now - s.lastActivityAt > cfg.sessionTimeout)) :
    recordAction digest cfg (some s) agentId externalId actionName params
      success scoreMet now =
    ({ behaviorScore := s.behaviorScore, flags := s.flags, blocked := true,
       events := [] },
     some { s with
       actions := s.actions ++
         [{ actionName := actionName,
            paramsHash := hashParams digest actionName params,
            success := success, scopeViolation := !scoreMet,
            timestamp := now }],
       lastActivityAt := now }) := by
  have hstep : recordAction digest cfg (some s) agentId externalId actionName
      params success scoreMet now =
      recordActionOn digest cfg
        (if now - s.lastActivityAt > cfg.sessionTimeout then
          freshSession agentId externalId now
        else s) actionName params success scoreMet now := by
    unfold recordAction
    rw [hen]
    rfl
  rw [hstep, if_neg hw]
  unfold recordActionOn
  dsimp only
  rw [show (appendedSession digest s actionName params success scoreMet
      now).blocked = true from hb]
  rfl

/-- Along any trace whose gaps stay within `sessionTimeout`, a blocked
session stays blocked with score and flags untouched. -/
theorem runTrace_blocked (digest : String → String) (cfg : BehaviorConfig)
    (agentId externalId : String) (hen : cfg.enabled = true)
    (calls : List TrackCall) :
    ∀ (s : AgentSession), s.blocked = true →
      withinTraceB cfg s.lastActivityAt calls = true →
      ∃ s', runTrace digest cfg agentId externalId (some s) calls = some s' ∧
        s'.blocked = true ∧ s'.behaviorScore = s.behaviorScore ∧
        s'.flags = s.flags ∧
        s'.lastActivityAt = lastNow s.lastActivityAt calls := by
  induction calls with
  | nil => exact fun s hb _ => ⟨s, rfl, hb, rfl, rfl, rfl⟩
  | cons c cs ih =>
    intro s hb hw
    have hw' : ¬ (c.now - s.lastActivityAt > cfg.sessionTimeout) ∧
        withinTraceB cfg c.now cs = true := by
      unfold withinTraceB at hw
      simp only [Bool.and_eq_true, Bool.not_eq_true', decide_eq_false_iff_not]
        at hw
      exact hw
    have hstep := recordAction_blocked_step digest cfg agentId externalId
      c.actionName c.params c.success c.scoreMet c.now s hen hb hw'.1
    obtain ⟨s', heq, hb', hscore, hflags, hlast⟩ :=
      ih { s with
          actions := s.actions ++
            [{ actionName := c.actionName,
               paramsHash := hashParams digest c.actionName c.params,
               success := c.success, scopeViolation := !c.scoreMet,
               timestamp := c.now }],
          lastActivityAt := c.now } hb hw'.2
    refine ⟨s', ?_, hb', hscore, hflags, hlast⟩
    show runTrace digest cfg agentId externalId
        (recordAction digest cfg (some s) agentId externalId c.actionName
          c.params c.success c.scoreMet c.now).2 cs = some s'
    rw [hstep]
    exact heq

/-- C3: on an enabled tracker, `blocked` is absorbing within a session:
(i) a `recordAction` call on a blocked, unexpired session appends the action
and returns immediately — score and flags unchanged, `blocked` still true,
no events, so no detector pass and no penalty; (ii) along any trace of calls
whose gaps stay within `sessionTimeout`, the session stays blocked with score
and flags untouched; (iii) the gateway's action route answers any request for
an agent whose session is blocked with a 403 denial, never consults the
action registry, and leaves the session untouched; (iv) a call can turn a
blocked session into an unblocked one only when the idle gap exceeded
`sessionTimeout`, i.e. only session expiry clears `blocked`. -/
theorem blocked_is_absorbing (digest : String → String) (cfg : BehaviorConfig)
    (agentId externalId : String) (hen : cfg.enabled = true) :
    (∀ (s : AgentSession) (actionName : String)
        (params : List (String × JValue)) (success scoreMet : Bool) (now : ℤ),
      s.blocked = true → ¬ (now - s.lastActivityAt > cfg.sessionTimeout) →
      recordAction digest cfg (some s) agentId externalId actionName params
        success scoreMet now =
      ({ behaviorScore := s.behaviorScore, flags := s.flags, blocked := true,
         events := [] },
       some { s with
         actions := s.actions ++
           [{ actionName := actionName,
              paramsHash := hashParams digest actionName params,
              success := success, scopeViolation := !scoreMet,
              timestamp := now }],
         lastActivityAt := now })) ∧
    (∀ (calls : List TrackCall) (s : AgentSession), s.blocked = true →
      withinTraceB cfg s.lastActivityAt calls = true →
      ∃ s', runTrace digest cfg agentId externalId (some s) calls = some s' ∧
        s'.blocked = true ∧ s'.behaviorScore = s.behaviorScore ∧
        s'.flags = s.flags) ∧
    (∀ (registry : List (String × ℤ)) (mlAvailable mlSafe execSuccess : Bool)
        (sessionOpt : Option AgentSession) (cert : CertPayload)
        (actionName : String) (params : List (String × JValue)) (now : ℤ),
      isBlocked sessionOpt = true →
      handleActionRequest digest cfg registry mlAvailable mlSafe execSuccess
        sessionOpt cert actionName params now =
      ({ status := 403, executeCalled := false }, sessionOpt)) ∧
    (∀ (s s' : AgentSession) (actionName : String)
        (params : List (String × JValue)) (success scoreMet : Bool) (now : ℤ),
      s.blocked = true →
      (recordAction digest cfg (some s) agentId externalId actionName params
        success scoreMet now).2 = some s' →
      s'.blocked = false → now - s.lastActivityAt > cfg.sessionTimeout) := by
  refine ⟨?_, ?_, ?_, ?_⟩
  · intro s actionName params success scoreMet now hb hw
    exact recordAction_blocked_step digest cfg agentId externalId actionName
      params success scoreMet now s hen hb hw
  · intro calls s hb hw
    obtain ⟨s', h1, h2, h3, h4, _⟩ :=
      runTrace_blocked digest cfg agentId externalId hen calls s hb hw
    exact ⟨s', h1, h2, h3, h4⟩
  · intro registry mlAvailable mlSafe execSuccess sessionOpt cert actionName
      params now hblk
    unfold handleActionRequest
    rw [hblk]
    rfl
  · intro s s' actionName params success scoreMet now hb h2 hbf
    by_contra hnex
    have hstep := recordAction_blocked_step digest cfg agentId externalId
      actionName params success scoreMet now s hen hb hnex
    rw [hstep] at h2
    have h3 : s.blocked = false := by
      rw [show s.blocked =
          ({ s with
             actions := s.actions ++
               [{ actionName := actionName,
                  paramsHash := hashParams digest actionName params,
                  success := success, scopeViolation := !scoreMet,
                  timestamp := now }],
             lastActivityAt := now } : AgentSession).blocked from rfl,
        Option.some.inj h2]
      exact hbf
    rw [hb] at h3
    cases h3

/-- Witness for C3: the gateway's blocked branch at a concrete blocked
session. -/
theorem blocked_is_absorbing_witness :
    handleActionRequest (fun _ => "h") defaultBehaviorConfig [("search", 30)]
        true true true (some c3Blocked) c3Cert "search" [] 1000 =
      ({ status := 403, executeCalled := false }, some c3Blocked) :=
  (blocked_is_absorbing (fun _ => "h") defaultBehaviorConfig "A" "x"
      (by decide)).2.2.1 [("search", 30)] true true true (some c3Blocked)
    c3Cert "search" [] 1000 (by decide)

/-! ### C9: the SDK certificate cache

`AgentClient.getCertificate` (client.ts lines 56–99). The cached fields of
the client are the state; the network fetch is abstracted: `newToken` and
`newExpiry` stand for `data.token` and `new Date(data.expiresAt).getTime()`
of the station's response, and the third component of the result records
whether the fetch happened. JS notes mirrored here: the `scope` parameter
distinguishes omitted (`undefined`, keep the stored scope), `null` (clear the
scope) and a list; `scopeChanged` compares `JSON.stringify` images, which on
`string[] | undefined` values coincides with equality; the cached-token test
`this.currentCertificate &&` is string truthiness, so a cached empty string
counts as no token. -/

structure ClientState where
  currentCertificate : Option String
  certificateExpiry : ℤ
  currentScope : Option (List String)
deriving DecidableEq, Repr

/-- `scope === undefined ? this.currentScope : (scope === null ? undefined :
scope)`: the argument is `none` for omitted, `some none` for `null`,
`some (some l)` for a list. -/
def effectiveScope (st : ClientState)
    (scope : Option (Option (List String))) : Option (List String) :=
  match scope with
  | none => st.currentScope
  | some none => none
  | some (some l) => some l

/-- JS string-or-null truthiness: null and `""` are falsy. -/
def tokenTruthy : Option String → Bool
  | none => false
  | some t => !(t == "")

/-- `AgentClient.getCertificate`: returns the token handed to the caller, the
client state after the call, and whether a network fetch happened. -/
def getCertificate (st : ClientState) (forceRefresh : Bool)
    (scope : Option (Option (List String))) (now : ℤ)
    (newToken : String) (newExpiry : ℤ) : String × ClientState × Bool :=
  let eff := effectiveScope st scope
  let scopeChanged := decide (eff ≠ st.currentScope)
  if !forceRefresh && !scopeChanged && tokenTruthy st.currentCertificate &&
      decide (now < st.certificateExpiry - 30000) then
    (st.currentCertificate.getD "", st, false)
  else
    (newToken,
     { currentCertificate := some newToken, certificateExpiry := newExpiry,
       currentScope := eff }, true)

/-- A client state with a live cached token, used to witness C9. -/
def c9St : ClientState :=
  { currentCertificate := some "t1", certificateExpiry := 40000,
    currentScope := none }

/-- C9: `getCertificate` serves from the cache, with no network fetch and no
state change, exactly when `forceRefresh` is false, the effective requested
scope equals the cached scope, a (truthy) token is cached and
`now + 30000 < certificateExpiry`; in every other case it fetches and the
cache is updated to the fresh token, expiry and effective scope, and the
fresh token is returned. -/
theorem getCertificate_cache_contract (st : ClientState) (forceRefresh : Bool)
    (scope : Option (Option (List String))) (now : ℤ)
    (newToken : String) (newExpiry : ℤ) :
    ((getCertificate st forceRefresh scope now newToken newExpiry).2.2 = false ↔
      (forceRefresh = false ∧ effectiveScope st scope = st.currentScope ∧
       tokenTruthy st.currentCertificate = true ∧
       now + 30000 < st.certificateExpiry)) ∧
    ((getCertificate st forceRefresh scope now newToken newExpiry).2.2 = false →
      ∃ t, st.currentCertificate = some t ∧
        (getCertificate st forceRefresh scope now newToken newExpiry).1 = t ∧
        (getCertificate st forceRefresh scope now newToken newExpiry).2.1 = st) ∧
    ((getCertificate st forceRefresh scope now newToken newExpiry).2.2 = true →
      (getCertificate st forceRefresh scope now newToken newExpiry).1 =
        newToken ∧
      (getCertificate st forceRefresh scope now newToken newExpiry).2.1 =
        { currentCertificate := some newToken, certificateExpiry := newExpiry,
          currentScope := effectiveScope st scope }) := by
  have hre : getCertificate st forceRefresh scope now newToken newExpiry =
      if (!forceRefresh && !decide (effectiveScope st scope ≠ st.currentScope) &&
          tokenTruthy st.currentCertificate &&
          decide (now < st.certificateExpiry - 30000)) = true then
        (st.currentCertificate.getD "", st, false)
      else
        (newToken,
         { currentCertificate := some newToken, certificateExpiry := newExpiry,
           currentScope := effectiveScope st scope }, true) := by
    unfold getCertificate
    rfl
  have hiff : ((!forceRefresh &&
      !decide (effectiveScope st scope ≠ st.currentScope) &&
      tokenTruthy st.currentCertificate &&
      decide (now < st.certificateExpiry - 30000)) = true) ↔
      (forceRefresh = false ∧ effectiveScope st scope = st.currentScope ∧
       tokenTruthy st.currentCertificate = true ∧
       now + 30000 < st.certificateExpiry) := by
    simp only [Bool.and_eq_true, Bool.not_eq_true', decide_eq_false_iff_not,
      decide_eq_true_eq, ne_eq, not_not]
    constructor
    · rintro ⟨⟨⟨h1, h2⟩, h3⟩, h4⟩
      exact ⟨h1, h2, h3, by omega⟩
    · rintro ⟨h1, h2, h3, h4⟩
      exact ⟨⟨⟨h1, h2⟩, h3⟩, by omega⟩
  by_cases hc : (!forceRefresh &&
      !decide (effectiveScope st scope ≠ st.currentScope) &&
      tokenTruthy st.currentCertificate &&
      decide (now < st.certificateExpiry - 30000)) = true
  · rw [hre, if_pos hc]
    refine ⟨⟨fun _ => hiff.mp hc, fun _ => rfl⟩, fun _ => ?_, fun habs => ?_⟩
    · have ht : tokenTruthy st.currentCertificate = true := (hiff.mp hc).2.2.1
      cases hcc : st.currentCertificate with
      | none => rw [hcc] at ht; cases ht
      | some t => exact ⟨t, rfl, rfl, rfl⟩
    · cases habs
  · rw [hre, if_neg hc]
    refine ⟨⟨fun habs => ?_, fun hprops => absurd (hiff.mpr hprops) hc⟩,
      fun habs => ?_, fun _ => ⟨rfl, rfl⟩⟩
    · cases habs
    · cases habs

/-- Witness for C9: a live cached token is served without a fetch. -/
theorem getCertificate_cache_contract_witness :
    (getCertificate c9St false none 0 "n" 0).2.2 = false :=
  (getCertificate_cache_contract c9St false none 0 "n" 0).1.mpr
    ⟨rfl, rfl, by decide, by decide⟩
